import Mathlib

/-!
DIMPLE haptics loop: a shallow embedding.

The definitions below follow `src/HapticsSim.cpp` and `src/OscObject.cpp`.
A floating-point number is embedded as the rational it stands for.  The
narrowing of a value to `float` is the IEEE 754 one (`toFloat`).  The
functions whose results are read on the machine take the rounding of a
double-precision operation as a parameter (`toDouble` on the machine, the
identity where arithmetic is taken as exact); the other functions compute
with exact double-precision arithmetic.  An `int` is an integer, and the
arithmetic the source does with it wraps around modulo 2^32 (`wrapInt`).
Pointers to scene objects are references (`Ref`, addresses), a null pointer
is `none`, and a function that dereferences a null pointer has no result.
Services of the CHAI library and of liblo (device input, the
interaction-force algorithms, sending an OSC packet) appear as explicit
inputs of a tick and as a list of emitted messages.
-/

namespace Dimple

/-! ## Vectors -/

/-- A `cVector3d` with exact components. -/
structure Vec3 where
  x : ℚ
  y : ℚ
  z : ℚ
  deriving DecidableEq, Repr

namespace Vec3

/-- The zero vector, `cVector3d(0,0,0)`. -/
def zero : Vec3 := ⟨0, 0, 0⟩

instance : Inhabited Vec3 := ⟨zero⟩

/-- Component access `v(i)`. -/
def get (v : Vec3) (i : Fin 3) : ℚ :=
  match i with
  | 0 => v.x
  | 1 => v.y
  | 2 => v.z

/-- Component assignment `v(i) = a`. -/
def set (v : Vec3) (i : Fin 3) (a : ℚ) : Vec3 :=
  match i with
  | 0 => { v with x := a }
  | 1 => { v with y := a }
  | 2 => { v with z := a }

/-- The sum `a + b`. -/
def add (a b : Vec3) : Vec3 := ⟨a.x + b.x, a.y + b.y, a.z + b.z⟩

/-- The difference `a - b`. -/
def sub (a b : Vec3) : Vec3 := ⟨a.x - b.x, a.y - b.y, a.z - b.z⟩

/-- The product `v * c` (also `c * v`) with a scalar. -/
def mul (v : Vec3) (c : ℚ) : Vec3 := ⟨v.x * c, v.y * c, v.z * c⟩

/-- The quotient `v / c` by a scalar. -/
def div (v : Vec3) (c : ℚ) : Vec3 := ⟨v.x / c, v.y / c, v.z / c⟩

/-- The negation `-v`. -/
def neg (v : Vec3) : Vec3 := ⟨-v.x, -v.y, -v.z⟩

end Vec3

/-! ## Machine numbers -/

/-- The value an `int` holds for the integer `n`: two's-complement wrap-around
into the range from -2^31 to 2^31 - 1. -/
def wrapInt (n : Int) : Int := (n + 2147483648) % 4294967296 - 2147483648

/-- The power `2^k` for an integer exponent. -/
def pow2 (k : Int) : ℚ :=
  if 0 ≤ k then ((2 ^ k.toNat : Nat) : ℚ) else 1 / ((2 ^ (-k).toNat : Nat) : ℚ)

/-- Rounding to the nearest integer, a tie going to the even neighbour. -/
def roundHalfEven (x : ℚ) : Int :=
  let f := ⌊x⌋
  let r := x - f
  if r < 1 / 2 then f
  else if 1 / 2 < r then f + 1
  else if f % 2 = 0 then f else f + 1

/-- The binary logarithm of `n`, rounded down, computed by halving at most
`fuel` times. -/
def log2Fuel : Nat → Nat → Nat
  | 0, _ => 0
  | fuel + 1, n => if n < 2 then 0 else log2Fuel fuel (n / 2) + 1

/-- The binary logarithm of a positive natural number, rounded down. -/
def ilog2 (n : Nat) : Nat := log2Fuel n n

/-- The exponent `e` with `2^e ≤ |x| < 2^(e+1)`, for `x` other than 0. -/
def binade (x : ℚ) : Int :=
  let k : Int := (ilog2 x.num.natAbs : Int) - (ilog2 x.den : Int)
  if pow2 k ≤ |x| then k else k - 1

/-- Rounding to the nearest number of a binary floating-point format with `p`
significant bits whose smallest positive number is `2^emin` (IEEE 754, round to
nearest, ties to even, with gradual underflow).  Overflow to infinity is not
modelled: the exponent is unbounded above. -/
def roundBinary (p : Nat) (emin : Int) (x : ℚ) : ℚ :=
  if x = 0 then 0
  else
    let e := max (binade x - ((p : Int) - 1)) emin
    (roundHalfEven (x / pow2 e) : ℚ) * pow2 e

/-- The conversion of a value to `float` (binary32). -/
def toFloat (x : ℚ) : ℚ := roundBinary 24 (-149) x

/-- The rounding of the exact result of an operation to `double` (binary64). -/
def toDouble (x : ℚ) : ℚ := roundBinary 53 (-1074) x

/-! ## Workspace calibration (`HapticsSim::updateWorkspace`) -/

/-- The workspace members of `HapticsSim`: `m_resetWorkspace`,
`m_workspace[0]`, `m_workspace[1]`, `m_workspaceScale`, `m_workspaceOffset`. -/
structure Workspace where
  m_resetWorkspace : Bool
  m_workspace0 : Vec3
  m_workspace1 : Vec3
  m_workspaceScale : Vec3
  m_workspaceOffset : Vec3
  deriving DecidableEq, Repr

/-- The body of the `for (i=0; i<3; i++)` loop of `HapticsSim::updateWorkspace`
(HapticsSim.cpp lines 136-150) for axis `i`, acting on the workspace members
and on the position `pos` passed by reference.  `dbl` is the rounding of a
double-precision operation.  The difference of the bounds is narrowed to
`float dif` before it is compared with zero. -/
def updateWorkspaceBodyRnd (dbl : ℚ → ℚ) (i : Fin 3) (st : Workspace × Vec3) :
    Workspace × Vec3 :=
  let w := st.1
  let pos := st.2
  -- Update workspace boundaries
  let w := if pos.get i < w.m_workspace0.get i then
      { w with m_workspace0 := w.m_workspace0.set i (pos.get i) } else w
  let w := if pos.get i > w.m_workspace1.get i then
      { w with m_workspace1 := w.m_workspace1.set i (pos.get i) } else w
  let dif := toFloat (dbl (w.m_workspace1.get i - w.m_workspace0.get i))
  let quotient := dbl (2 / dbl (w.m_workspace1.get i - w.m_workspace0.get i))
  let w := if dif ≠ 0 then
      { w with m_workspaceScale := w.m_workspaceScale.set i quotient }
    else
      { w with m_workspaceScale := w.m_workspaceScale.set i 1 }
  let half := dbl (-(dbl (w.m_workspace1.get i + w.m_workspace0.get i)) / 2)
  let w := { w with m_workspaceOffset := w.m_workspaceOffset.set i half }
  -- Normalize position to [-1, 1] within workspace.
  let normalized := dbl (dbl (pos.get i + w.m_workspaceOffset.get i) * w.m_workspaceScale.get i)
  let pos := pos.set i normalized
  (w, pos)

/-- The function `HapticsSim::updateWorkspace(cVector3d &pos)`: the new
workspace members and the new value of `pos`; `dbl` is the rounding of a
double-precision operation. -/
def updateWorkspaceRnd (dbl : ℚ → ℚ) (w : Workspace) (pos : Vec3) : Workspace × Vec3 :=
  let w := if w.m_resetWorkspace then
      { w with m_workspace0 := pos, m_workspace1 := pos, m_resetWorkspace := false }
    else w
  [(0 : Fin 3), 1, 2].foldl (fun st i => updateWorkspaceBodyRnd dbl i st) (w, pos)

/-- Feeding a sequence of device positions one by one to `updateWorkspace`:
the final workspace and the normalized positions, in order. -/
def feedWorkspaceRnd (dbl : ℚ → ℚ) (w : Workspace) : List Vec3 → Workspace × List Vec3
  | [] => (w, [])
  | p :: ps =>
    let r := updateWorkspaceRnd dbl w p
    let rest := feedWorkspaceRnd dbl r.1 ps
    (rest.1, r.2 :: rest.2)

/-- The loop body of `HapticsSim::updateWorkspace` with arithmetic in double
precision taken as exact. -/
def updateWorkspaceBody (i : Fin 3) (st : Workspace × Vec3) : Workspace × Vec3 :=
  updateWorkspaceBodyRnd id i st

/-- The function `HapticsSim::updateWorkspace(cVector3d &pos)` with arithmetic
in double precision taken as exact. -/
def updateWorkspace (w : Workspace) (pos : Vec3) : Workspace × Vec3 :=
  updateWorkspaceRnd id w pos

/-- Feeding a sequence of device positions one by one to `updateWorkspace`,
with arithmetic in double precision taken as exact. -/
def feedWorkspace (w : Workspace) : List Vec3 → Workspace × List Vec3
  | [] => (w, [])
  | p :: ps =>
    let r := updateWorkspace w p
    let rest := feedWorkspace r.1 ps
    (rest.1, r.2 :: rest.2)

/-! ## Scene objects and collision bookkeeping (`OscObject`) -/

/-- A pointer to a scene entity of the haptics simulation: the cursor
(`m_cursor`) or a world object. -/
inductive Ref where
  | cursor
  | object (id : Nat)
  deriving DecidableEq, Repr

/-- The simulations a message can be sent to (`Simulation::ST_*`). -/
inductive SimType where
  | physics
  | haptics
  | visual
  deriving DecidableEq, Repr

/-- The OSC messages the modelled code sends.  Where the source sends the
Euclidean length of a velocity difference, the message carries that
difference vector. -/
inductive OscMsg where
  /-- `sendtotype(update_sim, true, "/world/cursor/position", "fff", ...)` -/
  | cursorPosition (targets : List SimType) (pos : Vec3)
  /-- `sendtotype(ST_PHYSICS, true, path+"/push", "ffffff", ...)` -/
  | push (obj : Ref) (force : Vec3) (point : Vec3)
  /-- `lo_send(address_send, "/world/collide", "ssf", ...)` -/
  | worldCollide (a b : Ref) (relVelocity : Vec3)
  /-- `lo_send(address_send, "/world/"+m_name+"/collide", "sf", ...)` -/
  | objectCollide (self partner : Ref) (relVelocity : Vec3)
  /-- `sendtotype(ST_VISUAL, 0, "/world/cursor/visible", "i", v)` -/
  | cursorVisible (v : Int)
  deriving DecidableEq, Repr

/-- The member `std::map<OscObject*,int> m_collisions`: partner to the step
count last recorded for it, `none` when the map has no entry. -/
abbrev CollisionMap := Ref → Option Int

namespace CollisionMap

/-- The empty map. -/
def empty : CollisionMap := fun _ => none

/-- Reading `m[o]` (`std::map::operator[]`): the stored value, or a
value-initialised entry (0) that is inserted when `o` has none. -/
def index (m : CollisionMap) (o : Ref) : Int × CollisionMap :=
  match m o with
  | some v => (v, m)
  | none => (0, Function.update m o (some 0))

/-- The assignment `m[o] = v`. -/
def assign (m : CollisionMap) (o : Ref) (v : Int) : CollisionMap :=
  Function.update m o (some v)

end CollisionMap

/-- The members of `OscObject` used by the haptics loop, with the state of
its CHAI object: `m_pSpecial` tells whether `special()` is a `CHAIObject`
and `hapticEnabled` is the flag behind `setHapticEnabled`. -/
structure OscObject where
  m_position : Vec3
  m_velocity : Vec3
  m_collide : Bool
  m_collisions : CollisionMap
  m_pSpecial : Bool
  hapticEnabled : Bool

/-- The function `OscObject::collidedWith(OscObject *o, int count)` on the
object `me` (named by `self`); `oVelocity` is `o->m_velocity`.  The parameter
is an `int`: the function works with the value `wrapInt count`, and
`count - 1` wraps around.  Returns `rc`, the updated object and the messages
sent. -/
def OscObject.collidedWith (me : OscObject) (self o : Ref) (oVelocity : Vec3)
    (count : Int) : Bool × OscObject × List OscMsg :=
  let count := wrapInt count
  let r := me.m_collisions.index o
  let me := { me with m_collisions := r.2 }
  let res : Bool × List OscMsg :=
    if r.1 ≠ wrapInt (count - 1) then
      (true, if me.m_collide then
          [OscMsg.objectCollide self o (me.m_velocity.sub oVelocity)] else [])
    else (false, [])
  let me := { me with m_collisions := me.m_collisions.assign o count }
  (res.1, me, res.2)

/-! ## The cursor (`OscCursorCHAI`) -/

/-- The class `OscCursorCHAI`: an `OscObject` with the cursor dynamics members
and the device state of its `cToolCursor` (`m_pCursor`). -/
structure OscCursorCHAI extends OscObject where
  m_mass : ℚ
  m_force : Vec3
  m_massPos : Vec3
  m_massVel : Vec3
  m_lastPosDiff : Vec3
  m_extraForce : Vec3
  m_nExtraForceSteps : Int
  deviceGlobalPos : Vec3
  deviceGlobalLinVel : Vec3
  deviceGlobalForce : Vec3

namespace OscCursorCHAI

/-- The call `m_pCursor->addDeviceGlobalForce(f)`. -/
def addDeviceGlobalForce (c : OscCursorCHAI) (f : Vec3) : OscCursorCHAI :=
  { c with deviceGlobalForce := c.deviceGlobalForce.add f }

/-- The call `m_pCursor->setDeviceGlobalForce(f)`. -/
def setDeviceGlobalForce (c : OscCursorCHAI) (f : Vec3) : OscCursorCHAI :=
  { c with deviceGlobalForce := f }

/-- The function `OscCursorCHAI::on_force()`; the globals
`physics_timestep_ms` and `haptics_timestep_ms` (integers declared outside
the translated sources, taken as `int`) are parameters.  The product is an
`int` product, which wraps around, and the quotient is C integer division. -/
def on_force (physics_timestep_ms haptics_timestep_ms : Int) (c : OscCursorCHAI) :
    OscCursorCHAI :=
  { c with
    m_extraForce := c.m_force
    m_nExtraForceSteps :=
      Int.tdiv (wrapInt (physics_timestep_ms * 2)) haptics_timestep_ms }

/-- The function `OscCursorCHAI::addCursorMassForce()`; `timestep` is
`simulation()->timestep()`. -/
def addCursorMassForce (timestep : ℚ) (c : OscCursorCHAI) : OscCursorCHAI :=
  -- if no mass, just update the mass position
  if c.m_mass ≤ 0 then
    { c with
      m_massVel := (c.deviceGlobalPos.sub c.m_massPos).div timestep
      m_massPos := c.deviceGlobalPos }
  else
    let k : ℚ := 10
    let b : ℚ := 1 / 1000
    let posdiff := c.deviceGlobalPos.sub c.m_massPos
    let springVel := (posdiff.sub c.m_lastPosDiff).div timestep
    let c := { c with m_lastPosDiff := posdiff }
    let force := (posdiff.mul (-k)).sub (springVel.mul b)
    let c := { c with m_massPos := c.m_massPos.add (c.m_massVel.mul timestep) }
    let c := { c with m_massVel := c.m_massVel.sub ((force.div c.m_mass).mul timestep) }
    c.addDeviceGlobalForce (force.mul 10)

/-- The function `OscCursorCHAI::addCursorGrabbedForce(OscObject *pGrabbed)`;
`grabbedPosition` is `pGrabbed->m_position`. -/
def addCursorGrabbedForce (grabbedPosition : Vec3) (c : OscCursorCHAI) : OscCursorCHAI :=
  let f := c.m_position.sub grabbedPosition
  let f := f.mul (-10)
  let f := f.add (c.m_velocity.mul (-(1 / 1000)))
  c.addDeviceGlobalForce f

/-- The function `OscCursorCHAI::addCursorExtraForce()`. -/
def addCursorExtraForce (c : OscCursorCHAI) : OscCursorCHAI :=
  if c.m_nExtraForceSteps > 0 then
    let c := c.addDeviceGlobalForce c.m_extraForce
    { c with m_nExtraForceSteps := c.m_nExtraForceSteps - 1 }
  else c

end OscCursorCHAI

/-! ## The haptics simulation (`HapticsSim`) -/

/-- What the CHAI library delivers during one tick: the device pose read by
`updateFromDevice()`, the force computed by `computeInteractionForces()`, and
for each of the cursor force algorithms the contact it reports (contact object
and contact point), with `m_lastComputedGlobalForce`. -/
structure DeviceInput where
  devicePos : Vec3
  deviceVel : Vec3
  interactionForce : Vec3
  algoContacts : List (Option (Ref × Vec3))
  lastComputedGlobalForce : Vec3

/-- The members of `HapticsSim` (with those inherited from `Simulation`) that
the modelled functions use.  `objects` is the heap of world objects. -/
structure HapticsSim where
  workspace : Workspace
  m_counter : Int
  m_pGrabbedObject : Option Ref
  m_pContactObject : Option Ref
  m_lastForce : Vec3
  m_lastContactPoint : Vec3
  m_cursor : OscCursorCHAI
  objects : Nat → OscObject
  m_collide : Bool
  m_fTimestep : ℚ

/-- What one tick hands to the outside: the force `applyToDevice()` sends to
the device and the OSC messages, in the order sent. -/
structure StepOutput where
  appliedForce : Vec3
  msgs : List OscMsg

namespace HapticsSim

/-- Dereferencing an `OscObject*`: the `OscObject` part of the cursor or a
world object. -/
def getObj (s : HapticsSim) : Ref → OscObject
  | Ref.cursor => s.m_cursor.toOscObject
  | Ref.object id => s.objects id

/-- Writing through an `OscObject*`. -/
def setObj (s : HapticsSim) (r : Ref) (o : OscObject) : HapticsSim :=
  match r with
  | Ref.cursor => { s with m_cursor := { s.m_cursor with toOscObject := o } }
  | Ref.object id => { s with objects := Function.update s.objects id o }

/-- The call `a->collidedWith(b, count)` on the objects of the simulation. -/
def collidedWith (s : HapticsSim) (a b : Ref) (count : Int) :
    Bool × HapticsSim × List OscMsg :=
  let r := (s.getObj a).collidedWith a b (s.getObj b).m_velocity count
  (r.1, s.setObj a r.2.1, r.2.2)

/-- The state of a newly constructed `OscObject` with a CHAI representation:
zero position and velocity, no recorded collisions, haptic contact enabled. -/
def newObject : OscObject :=
  { m_position := Vec3.zero, m_velocity := Vec3.zero, m_collide := false,
    m_collisions := CollisionMap.empty, m_pSpecial := true, hapticEnabled := true }

/-- The state of the cursor after the `OscCursorCHAI` constructor: mass zero,
no extra force. -/
def newCursor : OscCursorCHAI :=
  { newObject with
    m_mass := 0, m_force := Vec3.zero, m_massPos := Vec3.zero, m_massVel := Vec3.zero,
    m_lastPosDiff := Vec3.zero, m_extraForce := Vec3.zero, m_nExtraForceSteps := 0,
    deviceGlobalPos := Vec3.zero, deviceGlobalLinVel := Vec3.zero,
    deviceGlobalForce := Vec3.zero }

/-- The function `HapticsSim::initialize()`: a new cursor, the workspace marked
for recalibration, step count 0, nothing grabbed. -/
def initSim (s : HapticsSim) : HapticsSim :=
  { s with
    m_cursor := newCursor
    workspace := { s.workspace with m_resetWorkspace := true }
    m_counter := 0
    m_pGrabbedObject := none }

/-- The function `HapticsSim::findContactObject()`.  The scan of
`cursor->m_pointForceAlgos` is commented out in the source (marked TODO), so
the local `obj` keeps its initial value `NULL` whatever the algorithms
report. -/
def findContactObject (_inp : DeviceInput) (s : HapticsSim) : HapticsSim :=
  let s := { s with m_pContactObject := none }
  let obj : Option Ref := none
  -- User data is set in the Osc*CHAI constructors
  match obj with
  | some o => { s with m_pContactObject := some o }
  | none => s

/-- The block `if (m_pContactObject) { ... }` that ends `HapticsSim::step()`
(HapticsSim.cpp lines 202-220): the push message, the two calls of
`collidedWith` and the `/world/collide` event. -/
def stepContact (s : HapticsSim) : HapticsSim × List OscMsg :=
  match s.m_pContactObject with
  | none => (s, [])
  | some co =>
    let push := OscMsg.push co s.m_lastForce.neg s.m_lastContactPoint
    let r1 := s.collidedWith co Ref.cursor s.m_counter
    let co1 := r1.1
    let s := r1.2.1
    let r2 := s.collidedWith Ref.cursor co s.m_counter
    let co2 := r2.1
    let s := r2.2.1
    let ev := if (co1 || co2) && s.m_collide then
        [OscMsg.worldCollide co Ref.cursor
          ((s.getObj co).m_velocity.sub s.m_cursor.m_velocity)] else []
    (s, [push] ++ r1.2.2 ++ r2.2.2 ++ ev)

/-- The function `HapticsSim::step()`: one haptic tick. -/
def step (inp : DeviceInput) (s : HapticsSim) : HapticsSim × StepOutput :=
  -- cursor->updateFromDevice()
  let s := { s with m_cursor := { s.m_cursor with deviceGlobalPos := inp.devicePos,
                                                  deviceGlobalLinVel := inp.deviceVel } }
  let r := updateWorkspace s.workspace s.m_cursor.deviceGlobalPos
  let s := { s with workspace := r.1 }
  let pos := r.2
  let s := { s with m_cursor := { s.m_cursor with deviceGlobalPos := pos } }
  let s := { s with m_cursor := { s.m_cursor with m_position := pos } }
  let s := { s with m_cursor := { s.m_cursor with m_velocity := s.m_cursor.deviceGlobalLinVel } }
  let s :=
    match s.m_pGrabbedObject with
    | some g =>
      let s := { s with m_cursor := s.m_cursor.setDeviceGlobalForce Vec3.zero }
      { s with m_cursor := s.m_cursor.addCursorGrabbedForce (s.getObj g).m_position }
    | none =>
      -- cursor->computeInteractionForces()
      let s := { s with m_cursor := s.m_cursor.setDeviceGlobalForce inp.interactionForce }
      { s with m_cursor := s.m_cursor.addCursorMassForce s.m_fTimestep }
  let s := { s with m_cursor := s.m_cursor.addCursorExtraForce }
  -- cursor->applyToDevice()
  let applied := s.m_cursor.deviceGlobalForce
  let s := { s with m_counter := s.m_counter + 1 }
  -- update_sim = ST_VISUAL, with ST_PHYSICS when an object is grabbed
  let update_sim := SimType.visual ::
    (if s.m_pGrabbedObject.isSome then [SimType.physics] else [])
  let posMsg := if update_sim ≠ [] then [OscMsg.cursorPosition update_sim pos] else []
  let s := findContactObject inp s
  let r := stepContact s
  (r.1, { appliedForce := applied, msgs := posMsg ++ r.2 })

/-- Running `step` over the inputs of consecutive ticks; the outputs are
listed in tick order. -/
def run (s : HapticsSim) : List DeviceInput → HapticsSim × List StepOutput
  | [] => (s, [])
  | inp :: rest =>
    let r := step inp s
    let t := run r.1 rest
    (t.1, r.2 :: t.2)

/-- The call `chai_object()->setHapticEnabled(v, true)` on the CHAI object of
`r`. -/
def setHapticEnabled (s : HapticsSim) (r : Ref) (v : Bool) : HapticsSim :=
  s.setObj r { s.getObj r with hapticEnabled := v }

/-- The value of `dynamic_cast<CHAIObject*>(r->special())`: the object's
CHAI representation, if it has one. -/
def chaiObjectOf (s : HapticsSim) (r : Ref) : Option Ref :=
  if (s.getObj r).m_pSpecial then some r else none

/-- Modelled from the spec: the base-class function `Simulation::set_grabbed`
(Simulation.cpp) is not among the translated sources.  The spec gives every
effect of a grab on the haptics side (release of the previous object,
disabling of the new one, cursor visibility) to the haptics simulation, so
the base call leaves the members modelled here unchanged. -/
def Simulation_set_grabbed (_pGrabbed : Option Ref) (s : HapticsSim) : HapticsSim := s

/-- The function `HapticsSim::set_grabbed(OscObject *pGrabbed)`.  The local
`CHAIObject *ob` is declared without an initial value; `obInit` is the value
it happens to hold. -/
def set_grabbed (obInit : Option Ref) (pGrabbed : Option Ref) (s : HapticsSim) :
    HapticsSim × List OscMsg :=
  let s := Simulation_set_grabbed pGrabbed s
  let ob := obInit
  -- return previous object to normal state
  let r : HapticsSim × Option Ref :=
    match s.m_pGrabbedObject with
    | some g =>
      let ob := s.chaiObjectOf g
      (match ob with
        | some c => s.setHapticEnabled c true
        | none => s, ob)
    | none => (s, ob)
  let s := r.1
  let ob := r.2
  let s := { s with m_pGrabbedObject := pGrabbed }
  -- remove new object from haptic contact
  let r : HapticsSim × Option Ref :=
    match s.m_pGrabbedObject with
    | some g =>
      let ob := s.chaiObjectOf g
      (match ob with
        | some c => s.setHapticEnabled c false
        | none => s, ob)
    | none => (s, ob)
  let s := r.1
  let ob := r.2
  -- set cursor visibility
  (s, [OscMsg.cursorVisible (if ob.isSome then 0 else 1)])

end HapticsSim

/-! ## Grabbing through the proxy object (`OscObject::grab_handler`) -/

/-- The thread a handler runs on (`hd->thread`). -/
inductive DimpleThread where
  | physics
  | haptics
  deriving DecidableEq, Repr

/-- The members of `OscConstraint` used here: the two participants
(`m_object2` is `none` for the static world) and the response parameters. -/
structure OscConstraint where
  m_object1 : Nat
  m_object2 : Option Nat
  m_stiffness : ℚ
  m_damping : ℚ
  deriving DecidableEq, Repr

/-- The function `OscConstraint::responseSpring_handler`; `args` are the float
arguments of the message (`argc` is their number). -/
def OscConstraint.responseSpring_handler (args : List ℚ) (thread : DimpleThread)
    (me : OscConstraint) : OscConstraint :=
  match args with
  | [a0, a1] =>
    if thread = DimpleThread.haptics then
      { me with m_stiffness := a0, m_damping := a1 }
    else me
  | _ => me

/-- The function `OscConstraint::responseLinear_handler`. -/
def OscConstraint.responseLinear_handler (args : List ℚ) (_thread : DimpleThread)
    (me : OscConstraint) : OscConstraint :=
  match args with
  | [a0] => { me with m_stiffness := a0, m_damping := 0 }
  | _ => me

/-! ## Composite binding in the `OscObject` constructor -/

/-- A C string: the characters before the terminating zero. -/
abbrev Name := List Char

instance : DecidableEq Name := inferInstanceAs (DecidableEq (List Char))

/-- The ODE side of a CHAI object (`cODEPrimitive`): its body `m_odeBody` and
the body its geom `m_odeGeom` is attached to. -/
structure OdePrimitive where
  m_odeBody : Nat
  geomBody : Nat
  deriving DecidableEq, Repr

/-- An `OscObject` of the world of OscObject.cpp: its name, whether it is an
`OscComposite`, its ODE primitive (`odePrimitive()`, the cast of `m_objChai`,
`none` when that is null), and the children of a composite (`m_children`, by
address). -/
structure SceneObject where
  m_name : Name
  composite : Bool
  odePrimitive : Option OdePrimitive
  m_children : List Nat
  deriving DecidableEq, Repr

/-- The globals the constructor works on: the objects by address with the next
address `new` hands out, the map `world_objects`, the next body `dBodyCreate`
hands out and the bodies given to `dBodyDestroy`. -/
structure Scene where
  heap : Nat → Option SceneObject
  nextObject : Nat
  world_objects : Name → Option Nat
  nextBody : Nat
  destroyedBodies : List Nat

namespace Scene

/-- Modelled from the spec: the function `findObject` is not among the
translated sources; names identify objects, so it is the lookup of the name in
`world_objects`, null when the name is not registered. -/
def findObject (name : Name) (w : Scene) : Option Nat :=
  w.world_objects name

/-- The cast `dynamic_cast<OscComposite*>(obj)`: the object when it is a
composite, null otherwise (also for a null `obj`). -/
def asComposite (obj : Option Nat) (w : Scene) : Option Nat :=
  match obj with
  | some a =>
    match w.heap a with
    | some o => if o.composite then some a else none
    | none => none
  | none => none

/-- The constructor `OscComposite::OscComposite(name)`: a new composite whose
`m_objChai` is an empty ODE object with a new body.  Its base-class
constructor `OscObject(NULL, name)` finds no `/` in the names it is given
here. -/
def newComposite (name : Name) (w : Scene) : Nat × Scene :=
  let this := w.nextObject
  let body := w.nextBody
  (this, { w with
    heap := Function.update w.heap this
      (some { m_name := name, composite := true,
              odePrimitive := some { m_odeBody := body, geomBody := body },
              m_children := [] })
    nextObject := this + 1
    nextBody := body + 1 })

/-- The function `OscComposite::addChild(OscObject *o)` on the composite at
address `parent`.  After the `push_back` it reads `o->odePrimitive()->m_odeBody`
and `odePrimitive()->m_odeBody`: there is no result when one of the two
primitives is null. -/
def addChild (parent o : Nat) (w : Scene) : Option Scene :=
  match w.heap parent with
  | none => none
  | some par =>
    let grown : SceneObject := { par with m_children := par.m_children ++ [o] }
    let w := { w with heap := Function.update w.heap parent (some grown) }
    -- add this child to the composite ODE body
    match w.heap o with
    | none => none
    | some child =>
      match child.odePrimitive, par.odePrimitive with
      | some cp, some pp =>
        let adopted : SceneObject :=
          { child with odePrimitive := some { m_odeBody := pp.m_odeBody,
                                              geomBody := pp.m_odeBody } }
        some { w with
          destroyedBodies := w.destroyedBodies ++ [cp.m_odeBody]
          heap := Function.update w.heap o (some adopted) }
      | _, _ => none

/-- The constructor `OscObject::OscObject(p, name, parent)`, as far as the
scene is concerned: the new object with `m_objChai = p` (`p` is given by its
ODE primitive, `none` for a null pointer) and the composite binding of
OscObject.cpp lines 73-91.  Returns the address of the new object, and no
result when `addChild` dereferences a null primitive. -/
def construct (p : Option OdePrimitive) (name : Name) (w : Scene) : Option (Nat × Scene) :=
  let this := w.nextObject
  let w := { w with
    heap := Function.update w.heap this
      (some { m_name := name, composite := false, odePrimitive := p, m_children := [] })
    nextObject := this + 1 }
  -- If the new object is supposed to be a part of a
  -- composite object, find it and join.
  match name.indexOf? '/' with
  | none => some (this, w)
  | some k =>
    let len := if k < 255 then k else 255
    let firstname := name.take len
    let obj := w.findObject firstname
    match w.asComposite obj with
    | some parent => (w.addChild parent this).map (fun w => (this, w))
    | none =>
      if obj.isSome then some (this, w) -- error, parent is not a composite object
      else
        let r := w.newComposite firstname
        let parent := r.1
        let registry := Function.update r.2.world_objects firstname (some parent)
        let w := { r.2 with world_objects := registry }
        (w.addChild parent this).map (fun w => (this, w))

end Scene

/-! ## The haptic object factories -/

/-- An `Osc*CHAI` object: its name, the CHAI shape it owns (`m_pSphere`,
`m_pPrism`) and its position property. -/
structure HapticObject where
  m_name : Name
  shape : Nat
  m_position : Vec3
  deriving DecidableEq, Repr

/-- The haptic scene the factories work on: the children of the CHAI world
(`cWorld`), in the order added, with the next shape `new` hands out; the
objects constructed and not deleted, by address; and the names registered by
`add_object` with the address of their object. -/
structure HapticScene where
  chaiChildren : List Nat
  nextShape : Nat
  heap : List HapticObject
  registered : List (Name × Nat)
  deriving DecidableEq, Repr

namespace HapticScene

/-- Modelled from the spec: the function `Simulation::add_object`
(Simulation.cpp) is not among the translated sources.  Names are unique within
their kind and a name collision fails the creation: a name that is already
registered is rejected and nothing changes, any other name is registered. -/
def add_object (obj : Nat) (name : Name) (w : HapticScene) : Bool × HapticScene :=
  if w.registered.any (fun e => e.1 = name) then (false, w)
  else (true, { w with registered := w.registered ++ [(name, obj)] })

/-- The constructors `OscSphereCHAI::OscSphereCHAI` and
`OscPrismCHAI::OscPrismCHAI`, which differ in the kind of shape only: a new
shape is created and added to the CHAI world (`world->addChild`), and the
object owns it.  Returns the address of the new object.  (The composite
binding of the base-class constructor is modelled by `Scene.construct`.) -/
def newShapeObject (name : Name) (w : HapticScene) : Nat × HapticScene :=
  let shape := w.nextShape
  (w.heap.length,
    { w with
      chaiChildren := w.chaiChildren ++ [shape]
      nextShape := shape + 1
      heap := w.heap ++ [{ m_name := name, shape := shape, m_position := Vec3.zero }] })

/-- The assignment `obj->m_position.setd(x, y, z)`. -/
def setPosition (obj : Nat) (v : Vec3) (w : HapticScene) : HapticScene :=
  { w with heap := w.heap.modify (fun o => { o with m_position := v }) obj }

/-- The function `HapticsSphereFactory::create(name, x, y, z)` on the haptic
scene, from the body of the `OscSphereCHAI` constructor on (the base-class
constructor is in `HapticsSphereFactory.create`). -/
def sphereCreate (name : Name) (x y z : ℚ) (w : HapticScene) : Bool × HapticScene :=
  let r := w.newShapeObject name
  let obj := r.1
  let a := r.2.add_object obj name
  if !a.1 then (false, a.2)
  else (true, a.2.setPosition obj ⟨x, y, z⟩)

/-- The function `HapticsPrismFactory::create(name, x, y, z)` on the haptic
scene, from the body of the `OscPrismCHAI` constructor on (the base-class
constructor is in `HapticsPrismFactory.create`). -/
def prismCreate (name : Name) (x y z : ℚ) (w : HapticScene) : Bool × HapticScene :=
  let r := w.newShapeObject name
  let obj := r.1
  let a := r.2.add_object obj name
  if !a.1 then (false, a.2)
  else (true, a.2.setPosition obj ⟨x, y, z⟩)

end HapticScene

/-! ## Constraint back-lists (`OscConstraint::OscConstraint`, `OscObject::~OscObject`) -/

/-- The function `OscObject::linkConstraint(name)` on the member
`m_constraintLinks`. -/
def OscObject.linkConstraint (m_constraintLinks : List Name) (name : Name) : List Name :=
  m_constraintLinks ++ [name]

/-- The constraints by address with the next address `new` hands out, and for
every object its back-list `m_constraintList` and its list
`m_constraintLinks`; `destroyed` lists the constraints on which `on_destroy`
was called (each is handed to `Simulation::delete_constraint`, which is not
among the translated sources), in call order. -/
structure ConstraintWorld where
  constraints : Nat → OscConstraint
  nextConstraint : Nat
  m_constraintList : Nat → List Nat
  m_constraintLinks : Nat → List Name
  destroyed : List Nat

namespace ConstraintWorld

/-- The constructor `OscConstraint::OscConstraint(name, parent, object1,
object2)`; `object1` is not null (`assert(object1)`).  Returns the address of
the new constraint. -/
def newConstraint (name : Name) (object1 : Nat) (object2 : Option Nat)
    (w : ConstraintWorld) : Nat × ConstraintWorld :=
  let this := w.nextConstraint
  let me : OscConstraint :=
    { m_object1 := object1, m_object2 := object2, m_stiffness := 0, m_damping := 0 }
  let w := { w with constraints := Function.update w.constraints this me,
                    nextConstraint := this + 1 }
  let list1 := w.m_constraintList object1 ++ [this]
  let w := { w with m_constraintList := Function.update w.m_constraintList object1 list1 }
  let w := match object2 with
    | some o2 =>
      let list2 := w.m_constraintList o2 ++ [this]
      { w with m_constraintList := Function.update w.m_constraintList o2 list2 }
    | none => w
  -- inform object2 that it is in use in a constraint
  let w := match object2 with
    | some o2 =>
      let links := OscObject.linkConstraint (w.m_constraintLinks o2) name
      { w with m_constraintLinks := Function.update w.m_constraintLinks o2 links }
    | none => w
  (this, w)

/-- The call `x->m_constraintList.remove(o)` of `std::list`: every element
equal to `o` is removed. -/
def removeFrom (x o : Nat) (w : ConstraintWorld) : ConstraintWorld :=
  let kept := (w.m_constraintList x).filter (fun c => c ≠ o)
  { w with m_constraintList := Function.update w.m_constraintList x kept }

/-- The function `OscConstraint::on_destroy()` on the constraint `o`. -/
def on_destroy (o : Nat) (w : ConstraintWorld) : ConstraintWorld :=
  { w with destroyed := w.destroyed ++ [o] }

/-- The `while` loop of `OscObject::~OscObject` over the elements of
`this->m_constraintList` that remain to be visited.  The result is `none` when
the loop removes elements from the very list it iterates over (a constraint
that joins `this` to itself), which invalidates its iterator: the behaviour
of the source is then undefined. -/
def destroyLoop (this : Nat) : List Nat → ConstraintWorld → Option ConstraintWorld
  | [], w => some w
  | o :: rest, w =>
    match (w.constraints o).m_object2 with
    | some o2 =>
      if this = (w.constraints o).m_object1 then
        if o2 = this then none
        else destroyLoop this rest ((w.removeFrom o2 o).on_destroy o)
      else if this = o2 then
        destroyLoop this rest ((w.removeFrom (w.constraints o).m_object1 o).on_destroy o)
      else destroyLoop this rest (w.on_destroy o)
    | none => destroyLoop this rest (w.on_destroy o)

/-- The destructor `OscObject::~OscObject` of the object `this`. -/
def destroyObject (this : Nat) (w : ConstraintWorld) : Option ConstraintWorld :=
  destroyLoop this (w.m_constraintList this) w

end ConstraintWorld

/-! ## Motorised joints (`simulationCallback`) -/

/-- What ODE reports for one axis of a joint: the angle and the angle rate
(`dJointGetHingeAngle`, `dJointGetHingeAngleRate` and their siblings). -/
structure AxisReading where
  angle : ℚ
  rate : ℚ
  deriving DecidableEq, Repr

/-- The class `OscHinge`: an `OscConstraint` with the property `m_torque`. -/
structure OscHinge extends OscConstraint where
  m_torque : ℚ
  deriving DecidableEq, Repr

/-- The function `OscHinge::simulationCallback()`.  `joint` is what
`m_object1->odePrimitive()->getJoint(m_name, id)` finds (`none` when it returns
false).  Returns the hinge and the torque handed to `dJointAddHingeTorque`
(`none` when it is not called). -/
def OscHinge.simulationCallback (joint : Option AxisReading) (me : OscHinge) :
    OscHinge × Option ℚ :=
  match joint with
  | none => (me, none)
  | some id =>
    let angle := id.angle
    let rate := id.rate
    let me := { me with m_torque := -me.m_stiffness * angle - me.m_damping * rate }
    (me, some me.m_torque)

/-- The function `OscHinge2::simulationCallback()` on the constraint part of
the joint; `joint` is what `getJoint` finds, with the reading of axis 1.
Returns the two torques handed to `dJointAddHinge2Torques` (`none` when it is
not called). -/
def OscHinge2.simulationCallback (joint : Option AxisReading) (me : OscConstraint) :
    Option (ℚ × ℚ) :=
  match joint with
  | none => none
  | some id =>
    let angle := id.angle
    let rate := id.rate
    some (me.m_stiffness * angle - me.m_damping * rate, 0)

/-- The function `OscUniversal::simulationCallback()`; `joint` is what
`getJoint` finds, with the readings of axis 1 and axis 2.  Returns the two
torques handed to `dJointAddUniversalTorques`. -/
def OscUniversal.simulationCallback (joint : Option (AxisReading × AxisReading))
    (me : OscConstraint) : Option (ℚ × ℚ) :=
  match joint with
  | none => none
  | some id =>
    let angle1 := id.1.angle
    let angle2 := id.2.angle
    let rate1 := id.1.rate
    let rate2 := id.2.rate
    some (-me.m_stiffness * angle1 - me.m_damping * rate1,
          -me.m_stiffness * angle2 - me.m_damping * rate2)

/-! ## Meshes (`OscMesh::size_handler`, `OscMeshCHAI`, `HapticsMeshFactory`) -/

/-- The state of a CHAI mesh that the modelled code reads and changes: its
position in the world (`translate` adds to it) and its boundary box in its own
frame (`getBoundaryMin`, `getBoundaryMax`), which scaling multiplies
component by component. -/
structure ChaiMesh where
  localPos : Vec3
  boundaryMin : Vec3
  boundaryMax : Vec3
  deriving DecidableEq, Repr

namespace ChaiMesh

/-- The call `translate(t)` of the CHAI library. -/
def translate (t : Vec3) (m : ChaiMesh) : ChaiMesh :=
  { m with localPos := m.localPos.add t }

/-- The calls `scale(s, true)` and `scaleXYZ(s.x, s.y, s.z)` of the CHAI
library. -/
def scale (s : Vec3) (m : ChaiMesh) : ChaiMesh :=
  { m with
    boundaryMin := ⟨m.boundaryMin.x * s.x, m.boundaryMin.y * s.y, m.boundaryMin.z * s.z⟩
    boundaryMax := ⟨m.boundaryMax.x * s.x, m.boundaryMax.y * s.y, m.boundaryMax.z * s.z⟩ }

end ChaiMesh

/-- What `loadFromFile` delivers for a file it can load: the boundary box of
the mesh (`computeBoundaryBox`), with `diagonal`, the Euclidean length of
`vmax - vmin` (`.length()`, a square root, supplied from outside). -/
structure LoadedMesh where
  vmin : Vec3
  vmax : Vec3
  diagonal : ℚ
  deriving DecidableEq, Repr

/-- The class `OscMeshCHAI`: its name, its mesh `m_pMesh` (null when the file
could not be loaded) with the shape it is in the CHAI world, and the
properties `m_size` and `m_position`. -/
structure OscMeshCHAI where
  m_name : Name
  m_pMesh : Option (Nat × ChaiMesh)
  m_size : Vec3
  m_position : Vec3
  deriving DecidableEq, Repr

namespace OscMeshCHAI

/-- The factors `on_size` hands to `scaleXYZ`: `m_size` divided, component by
component, by the extent of the boundary box. -/
def on_size_factors (m_size : Vec3) (mesh : ChaiMesh) : Vec3 :=
  let scale := mesh.boundaryMax.sub mesh.boundaryMin
  ⟨m_size.x / scale.x, m_size.y / scale.y, m_size.z / scale.z⟩

/-- The function `OscMeshCHAI::on_size()` on the mesh of the object. -/
def on_size (m_size : Vec3) (mesh : ChaiMesh) : ChaiMesh :=
  mesh.scale (on_size_factors m_size mesh)

/-- The translation the constructor applies under the comment "center the
mesh": `(vmax - vmin*3)/2`. -/
def centring (vmin vmax : Vec3) : Vec3 :=
  (vmax.sub (vmin.mul 3)).div 2

/-- The value the constructor gives `m_size` under the comment "size it to 0.1
without changing proportions"; `size` is `(vmax - vmin).length()`. -/
def initialSize (size : ℚ) : Vec3 :=
  ⟨(1 / 10) / size, (1 / 10) / size, (1 / 10) / size⟩

/-- The body of the constructor `OscMeshCHAI::OscMeshCHAI(world, name,
filename, parent)`, which acts on the haptic scene; `file` is what
`loadFromFile(filename)` delivers (`none` when it fails).  The base-class
constructor `OscMesh(NULL, name, filename, parent)` runs before this body (see
`OscMeshCHAI.constructor`).  Returns the object and the scene. -/
def construct (name _filename : Name) (file : Option LoadedMesh) (w : HapticScene) :
    OscMeshCHAI × HapticScene :=
  match file with
  | none =>
    -- Unable to load: m_pMesh is deleted and set to NULL
    ({ m_name := name, m_pMesh := none, m_size := Vec3.zero, m_position := Vec3.zero }, w)
  | some f =>
    let mesh : ChaiMesh := { localPos := Vec3.zero, boundaryMin := f.vmin, boundaryMax := f.vmax }
    -- center the mesh
    let vmin := mesh.boundaryMin
    let vmax := mesh.boundaryMax
    let mesh := mesh.translate (centring vmin vmax)
    -- size it to 0.1 without changing proportions
    let size := f.diagonal
    let m_size := initialSize size
    let mesh := on_size m_size mesh
    -- world->addChild(m_pMesh)
    let shape := w.nextShape
    ({ m_name := name, m_pMesh := some (shape, mesh), m_size := m_size,
       m_position := Vec3.zero },
     { w with chaiChildren := w.chaiChildren ++ [shape], nextShape := shape + 1 })

end OscMeshCHAI

/-! ## The factories with the base-class constructor -/

/-- The state the object factories of HapticsSim.cpp work on: the scene of
OscObject.cpp, on which the base-class constructor `OscObject::OscObject`
acts, and the haptic scene. -/
structure World where
  scene : Scene
  haptic : HapticScene

/-- The function `HapticsSphereFactory::create(name, x, y, z)`.  The expression
`new OscSphereCHAI(world, name, m_parent)` first runs the base-class
constructor `OscObject(NULL, name, parent)`, with a null primitive; the body
of the derived constructor and the rest of the factory act on the haptic
scene.  There is no result when the constructor dereferences a null
pointer. -/
def HapticsSphereFactory.create (name : Name) (x y z : ℚ) (w : World) :
    Option (Bool × World) :=
  match Scene.construct none name w.scene with
  | none => none
  | some base =>
    let r := w.haptic.sphereCreate name x y z
    some (r.1, { scene := base.2, haptic := r.2 })

/-- The function `HapticsPrismFactory::create(name, x, y, z)`, with the
base-class constructor `OscObject(NULL, name, parent)` that
`new OscPrismCHAI(world, name, m_parent)` runs first. -/
def HapticsPrismFactory.create (name : Name) (x y z : ℚ) (w : World) :
    Option (Bool × World) :=
  match Scene.construct none name w.scene with
  | none => none
  | some base =>
    let r := w.haptic.prismCreate name x y z
    some (r.1, { scene := base.2, haptic := r.2 })

/-- The constructor `OscMeshCHAI::OscMeshCHAI(world, name, filename, parent)`
in full: first the base-class constructor `OscMesh(NULL, name, filename,
parent)`, which is `OscObject(NULL, name)` with the composite binding, then
the body, which tries to load the file; `file` is what loading `filename`
delivers.  There is no result when the base-class constructor dereferences a
null pointer. -/
def OscMeshCHAI.constructor (name filename : Name) (file : Option LoadedMesh) (w : World) :
    Option (OscMeshCHAI × World) :=
  match Scene.construct none name w.scene with
  | none => none
  | some base =>
    let r := OscMeshCHAI.construct name filename file w.haptic
    some (r.1, { scene := base.2, haptic := r.2 })

/-- The function `HapticsMeshFactory::create(name, filename, x, y, z)`; `file`
is what loading `filename` delivers.  An object enters the heap of the haptic
scene once it is known not to be deleted again. -/
def HapticsMeshFactory.create (name filename : Name) (file : Option LoadedMesh)
    (x y z : ℚ) (w : World) : Option (Bool × World) :=
  match OscMeshCHAI.constructor name filename file w with
  | none => none
  | some r =>
    match r.1.m_pMesh with
    | none =>
      -- delete obj; obj = NULL; the destructor finds no mesh to take out of the world
      some (false, r.2)
    | some mesh =>
      let obj := r.2.haptic.heap.length
      let entry : HapticObject := { m_name := name, shape := mesh.1, m_position := Vec3.zero }
      let h := { r.2.haptic with heap := r.2.haptic.heap ++ [entry] }
      let a := h.add_object obj name
      if !a.1 then some (false, { r.2 with haptic := a.2 })
      else some (true, { r.2 with haptic := a.2.setPosition obj ⟨x, y, z⟩ })

/-! ## Unlinking a constraint (`OscObject::unlinkConstraint`) -/

/-- The `for` loop of `OscObject::unlinkConstraint(name)`: `it` is the position
of the iterator in `m_constraintLinks`.  After `erase(it)` the iterator stays
at its position, where the next entry now stands (the behaviour of the usual
vector; the standard calls the iterator invalid), and the loop then advances
it.  `fuel` bounds the number of passes; the result is `none` when it runs
out. -/
def OscObject.unlinkLoop (name : Name) : Nat → Nat → List Name → Option (List Name)
  | 0, it, links => if it < links.length then none else some links
  | fuel + 1, it, links =>
    if it < links.length then
      let links := if links.get? it = some name then links.eraseIdx it else links
      OscObject.unlinkLoop name fuel (it + 1) links
    else some links

/-- The function `OscObject::unlinkConstraint(name)` on the member
`m_constraintLinks`: the loop from `begin()`, with one pass allowed for every
entry of the list. -/
def OscObject.unlinkConstraint (m_constraintLinks : List Name) (name : Name) :
    Option (List Name) :=
  OscObject.unlinkLoop name m_constraintLinks.length 0 m_constraintLinks

/-! ## Drivers and reference formulas used by the theorems -/

/-- The lower bound `min_i` after it has been expanded to include the
sample `p`. -/
def axisLo (lo p : ℚ) : ℚ := if p < lo then p else lo

/-- The upper bound `max_i` after it has been expanded to include the
sample `p`. -/
def axisHi (hi p : ℚ) : ℚ := if p > hi then p else hi

/-- The scale the code stores for bounds `lo`, `hi`: `2/(hi - lo)`, and 1 when
the difference, narrowed to `float`, is zero; `dbl` is the rounding of a
double-precision operation. -/
def axisScaleRnd (dbl : ℚ → ℚ) (lo hi : ℚ) : ℚ :=
  if toFloat (dbl (hi - lo)) ≠ 0 then dbl (2 / dbl (hi - lo)) else 1

/-- The offset `-(max_i + min_i)/2`; `dbl` is the rounding of a
double-precision operation. -/
def axisOffsetRnd (dbl : ℚ → ℚ) (lo hi : ℚ) : ℚ := dbl (-(dbl (hi + lo)) / 2)

/-- The scale for bounds `lo`, `hi` with arithmetic in double precision taken
as exact. -/
def axisScale (lo hi : ℚ) : ℚ := if toFloat (hi - lo) ≠ 0 then 2 / (hi - lo) else 1

/-- The offset `-(max_i + min_i)/2` with arithmetic in double precision taken
as exact. -/
def axisOffset (lo hi : ℚ) : ℚ := -(hi + lo) / 2

/-- The bounds 0.03 and 0.058 as the machine holds them. -/
def sampleLo : ℚ := toDouble (3 / 100)

/-- The double nearest to 0.058. -/
def sampleHi : ℚ := toDouble (58 / 1000)

/-- The bound vector `updateWorkspace` starts from: the sample itself after a
reset, the stored bound otherwise. -/
def seedBound (w : Workspace) (stored pos : Vec3) : Vec3 :=
  if w.m_resetWorkspace then pos else stored

/-- A workspace in the reset state, as `HapticsSim::initialize` leaves it:
`m_resetWorkspace` is set, the other members hold zeros. -/
def resetWorkspace : Workspace :=
  { m_resetWorkspace := true, m_workspace0 := Vec3.zero, m_workspace1 := Vec3.zero,
    m_workspaceScale := Vec3.zero, m_workspaceOffset := Vec3.zero }

/-- Calling `collidedWith` on one object for the same partner `o` at the
consecutive step counts `n`, `n+1`, ...: one call per element of `vs` (the
partner velocity at that call).  Returns the result and the messages of each
call, in order, and the final object. -/
def collideRun (self o : Ref) : OscObject → Int → List Vec3 →
    List (Bool × List OscMsg) × OscObject
  | me, _, [] => ([], me)
  | me, n, v :: vs =>
    let r := me.collidedWith self o v n
    let rest := collideRun self o r.2.1 (n + 1) vs
    ((r.1, r.2.2) :: rest.1, rest.2)

/-- The cursor after `k` consecutive calls of `addCursorExtraForce`. -/
def extraForceTicks (k : Nat) (c : OscCursorCHAI) : OscCursorCHAI :=
  Nat.iterate OscCursorCHAI.addCursorExtraForce k c

/-- Whether a message is a `/world/collide` event. -/
def isWorldCollide : OscMsg → Bool
  | OscMsg.worldCollide _ _ _ => true
  | _ => false

/-- The number of `/world/collide` events among the messages of each tick. -/
def collideEvents (outs : List StepOutput) : List Nat :=
  outs.map (fun o => o.msgs.countP isWorldCollide)

/-- A haptics simulation before `initialize`: collision reporting enabled,
every world object newly constructed, timestep 1 ms. -/
def baseSim : HapticsSim :=
  { workspace := resetWorkspace, m_counter := 0, m_pGrabbedObject := none,
    m_pContactObject := none, m_lastForce := Vec3.zero, m_lastContactPoint := Vec3.zero,
    m_cursor := HapticsSim.newCursor, objects := fun _ => HapticsSim.newObject,
    m_collide := true, m_fTimestep := 1 / 1000 }

/-- A tick during which the tool touches world object 1: the first force
algorithm reports it as its contact object. -/
def touchInput : DeviceInput :=
  { devicePos := ⟨0, 0, 0⟩, deviceVel := ⟨1, 0, 0⟩, interactionForce := ⟨0, 0, 1⟩,
    algoContacts := [some (Ref.object 1, ⟨0, 0, 0⟩), none],
    lastComputedGlobalForce := ⟨0, 0, 1⟩ }

/-- The part of a tick that follows `applyToDevice()`, for a tick on which the
contact scan yields `co`: the increment of `m_counter`, then the contact block
with `m_pContactObject = co`. -/
def contactTick (co : Option Ref) (s : HapticsSim) : HapticsSim × List OscMsg :=
  HapticsSim.stepContact { s with m_counter := s.m_counter + 1, m_pContactObject := co }

/-- Consecutive ticks with the given contact objects: the number of
`/world/collide` events of each tick. -/
def contactEvents (s : HapticsSim) : List (Option Ref) → List Nat
  | [] => []
  | co :: rest =>
    let r := contactTick co s
    r.2.countP isWorldCollide :: contactEvents r.1 rest

/-- A cursor whose `/force` property holds (1, 0, 0). -/
def pushedCursor : OscCursorCHAI :=
  { HapticsSim.newCursor with m_force := ⟨1, 0, 0⟩ }

/-- A cursor with mass 2 lagging behind the device: device at (1, 0, 0), mass
at the origin moving with velocity (0, 1, 0), device force (0, 0, 3). -/
def heavyCursor : OscCursorCHAI :=
  { HapticsSim.newCursor with
    m_mass := 2, m_massVel := ⟨0, 1, 0⟩, deviceGlobalPos := ⟨1, 0, 0⟩,
    deviceGlobalForce := ⟨0, 0, 3⟩ }

/-- The same cursor without mass (`m_mass = 0`, the constructor default). -/
def lightCursor : OscCursorCHAI :=
  { heavyCursor with m_mass := 0 }

/-- A simulation in which world object 1, at the origin, is grabbed; the
workspace is calibrated to the cube `[-1, 1]^3` and the device force left by
the previous tick is (5, 5, 5). -/
def grabbedSim : HapticsSim :=
  { baseSim with
    workspace :=
      { m_resetWorkspace := false, m_workspace0 := ⟨-1, -1, -1⟩, m_workspace1 := ⟨1, 1, 1⟩,
        m_workspaceScale := ⟨1, 1, 1⟩, m_workspaceOffset := ⟨0, 0, 0⟩ }
    m_pGrabbedObject := some (Ref.object 1)
    m_cursor := { HapticsSim.newCursor with deviceGlobalForce := ⟨5, 5, 5⟩ }
    objects := Function.update (fun _ => HapticsSim.newObject) 1
      { HapticsSim.newObject with hapticEnabled := false } }

/-- A tick with the device at rest at (1, 0, 0). -/
def restInput : DeviceInput :=
  { devicePos := ⟨1, 0, 0⟩, deviceVel := ⟨0, 0, 0⟩, interactionForce := ⟨0, 0, 1⟩,
    algoContacts := [none, none], lastComputedGlobalForce := ⟨0, 0, 1⟩ }

/-- The contact scan as the specification words it: the first of the force
algorithms that reports a contact wins. -/
def firstContact (algos : List (Option (Ref × Vec3))) : Option (Ref × Vec3) :=
  algos.findSome? id

/-- Whether a message is a `push` message. -/
def isPush : OscMsg → Bool
  | OscMsg.push _ _ _ => true
  | _ => false

/-- Whether a message is a `/world/cursor/visible` message. -/
def isCursorVisible : OscMsg → Bool
  | OscMsg.cursorVisible _ => true
  | _ => false

/-- A constraint between objects 1 and 2 with stiffness 7 and damping 5. -/
def sampleConstraint : OscConstraint :=
  { m_object1 := 1, m_object2 := some 2, m_stiffness := 7, m_damping := 5 }

/-- The scene before any object exists. -/
def Scene.empty : Scene :=
  { heap := fun _ => none, nextObject := 0, world_objects := fun _ => none,
    nextBody := 0, destroyedBodies := [] }

/-- The name of a child `c` under the prefix `p`: `p/c`. -/
def childName (p c : Name) : Name := p ++ '/' :: c

/-- A scene with one object, not a composite and without an ODE primitive
(as the haptic factories construct it), registered under `name`. -/
def Scene.single (name : Name) : Scene :=
  { heap := Function.update (fun _ => none) 0
      (some { m_name := name, composite := false, odePrimitive := none, m_children := [] })
    nextObject := 1
    world_objects := Function.update (fun _ => none) name (some 0)
    nextBody := 0
    destroyedBodies := [] }

/-- A scene with one object, a composite without children, registered under
`name`; its body is body 0. -/
def Scene.withComposite (name : Name) : Scene :=
  { heap := Function.update (fun _ => none) 0
      (some { m_name := name, composite := true,
              odePrimitive := some { m_odeBody := 0, geomBody := 0 }, m_children := [] })
    nextObject := 1
    world_objects := Function.update (fun _ => none) name (some 0)
    nextBody := 1
    destroyedBodies := [] }

/-- A haptic scene in which the sphere `s1` exists and is registered. -/
def HapticScene.withS1 : HapticScene :=
  { chaiChildren := [0], nextShape := 1,
    heap := [{ m_name := ['s', '1'], shape := 0, m_position := Vec3.zero }],
    registered := [(['s', '1'], 0)] }

/-- The children a scene records for the composite registered under `name`
(none when the name is not registered). -/
def Scene.childrenOf (name : Name) (w : Scene) : List Nat :=
  match w.world_objects name with
  | none => []
  | some a =>
    match w.heap a with
    | none => []
    | some o => o.m_children

/-- The world before any constraint exists. -/
def ConstraintWorld.empty : ConstraintWorld :=
  { constraints := fun _ => ⟨0, none, 0, 0⟩, nextConstraint := 0,
    m_constraintList := fun _ => [], m_constraintLinks := fun _ => [], destroyed := [] }

/-- Constructing constraints one after the other, each given by its name and
its two participants. -/
def ConstraintWorld.build : List (Name × Nat × Option Nat) → ConstraintWorld → ConstraintWorld
  | [], w => w
  | e :: es, w => ConstraintWorld.build es (w.newConstraint e.1 e.2.1 e.2.2).2

/-- Three constraints: `a` joins objects 1 and 2, `b` joins 3 and 1, `c` ties
object 2 to the static world. -/
def sampleConstraints : List (Name × Nat × Option Nat) :=
  [(['a'], 1, some 2), (['b'], 3, some 1), (['c'], 2, none)]

/-- Back-lists as the `OscConstraint` constructor builds them: a constraint is
in the back-list of an object exactly when it has been constructed and the
object is one of its participants; `P` is a property that the participants of
every constructed constraint have. -/
def ConstraintWorld.Built (P : Nat → Option Nat → Prop) (w : ConstraintWorld) : Prop :=
  (∀ c X, c ∈ w.m_constraintList X ↔
    c < w.nextConstraint ∧
      ((w.constraints c).m_object1 = X ∨ (w.constraints c).m_object2 = some X)) ∧
  ∀ c, c < w.nextConstraint → P (w.constraints c).m_object1 (w.constraints c).m_object2

/-- The centre of the boundary box of a mesh, in world coordinates. -/
def ChaiMesh.centre (m : ChaiMesh) : Vec3 :=
  m.localPos.add ((m.boundaryMin.add m.boundaryMax).div 2)

/-- The extents of the boundary box of a mesh: `getBoundaryMax() -
getBoundaryMin()`. -/
def ChaiMesh.extent (m : ChaiMesh) : Vec3 :=
  m.boundaryMax.sub m.boundaryMin

/-- A mesh as loaded, before the constructor moves it: at the origin of the
world, with the boundary box of the file. -/
def ChaiMesh.loaded (vmin vmax : Vec3) : ChaiMesh :=
  { localPos := Vec3.zero, boundaryMin := vmin, boundaryMax := vmax }

/-- A mesh file whose boundary box is the box from (0, 0, 0) to (1, 2, 2); its
diagonal has length 3. -/
def boxFile : LoadedMesh :=
  { vmin := ⟨0, 0, 0⟩, vmax := ⟨1, 2, 2⟩, diagonal := 3 }

/-- The empty haptic scene. -/
def HapticScene.empty : HapticScene :=
  { chaiChildren := [], nextShape := 0, heap := [], registered := [] }

/-- The world before any object exists. -/
def World.empty : World :=
  { scene := Scene.empty, haptic := HapticScene.empty }

/-- A world in which one sphere exists under `name`: it is not a composite, it
is registered, and its shape is in the CHAI world. -/
def World.withSphere (name : Name) : World :=
  { scene := Scene.single name
    haptic :=
      { chaiChildren := [0], nextShape := 1,
        heap := [{ m_name := name, shape := 0, m_position := Vec3.zero }],
        registered := [(name, 0)] } }

/-- A world in which one composite without children exists under `name`. -/
def World.withComposite (name : Name) : World :=
  { scene := Scene.withComposite name, haptic := HapticScene.empty }

/-- What a factory call leaves to look at: its return value, the registered
names, the children of the CHAI world, the number of objects of the scene,
and the names under which `world_objects` holds a composite, among `names`. -/
def World.summary (names : List Name) (r : Option (Bool × World)) :
    Option (Bool × List Name × List Nat × Nat × List Name) :=
  r.map (fun r => (r.1, r.2.haptic.registered.map Prod.fst, r.2.haptic.chaiChildren,
    r.2.scene.nextObject,
    names.filter (fun n => (r.2.scene.asComposite (r.2.scene.world_objects n)).isSome)))

/-- Constructing `p/a` and then `p/b` in the empty scene, each with an ODE
primitive of its own (bodies 7 and 8), as a caller that supplies primitives
would. -/
def Scene.twoChildren : Option Scene :=
  (Scene.construct (some { m_odeBody := 7, geomBody := 7 }) (childName ['p'] ['a'])
      Scene.empty).bind
    (fun r => (Scene.construct (some { m_odeBody := 8, geomBody := 8 })
      (childName ['p'] ['b']) r.2).map Prod.snd)

/-- The body of the ODE primitive of the object at address `a`. -/
def Scene.bodyOf (a : Nat) (w : Scene) : Option Nat :=
  ((w.heap a).bind (fun o => o.odePrimitive)).map (fun q => q.m_odeBody)

/-- The two freshness results a tick computes for the contact object `co`
(HapticsSim.cpp lines 212-213), in the state `s` in which `m_counter` is
already incremented: `co1`, the result of the contact object against the
cursor, then `co2`, the result of the cursor against the contact object. -/
def contactFreshness (s : HapticsSim) (co : Ref) : Bool × Bool :=
  let r1 := s.collidedWith co Ref.cursor s.m_counter
  let r2 := r1.2.1.collidedWith Ref.cursor co s.m_counter
  (r1.1, r2.1)

/-- Consecutive ticks with the given world objects as contact objects: the
pair `(co1, co2)` of each tick that has a contact object. -/
def freshnessRun (s : HapticsSim) : List (Option Nat) → List (Option (Bool × Bool))
  | [] => []
  | co :: rest =>
    let s1 := { s with m_counter := s.m_counter + 1, m_pContactObject := co.map Ref.object }
    co.map (fun id => contactFreshness s1 (Ref.object id))
      :: freshnessRun (contactTick (co.map Ref.object) s).1 rest

/-! ## Theorems: vectors and workspace calibration -/

theorem Vec3.get_set_same (v : Vec3) (i : Fin 3) (a : ℚ) : (v.set i a).get i = a := by
  fin_cases i <;> rfl

theorem Vec3.get_set_ne (v : Vec3) (i j : Fin 3) (a : ℚ) (h : j ≠ i) :
    (v.set i a).get j = v.get j := by
  fin_cases i <;> fin_cases j <;> first | rfl | exact absurd rfl h

theorem Vec3.set_get_self (v : Vec3) (i : Fin 3) : v.set i (v.get i) = v := by
  fin_cases i <;> rfl

/-! ### Machine numbers -/

theorem pow2_eq (k : Int) : pow2 k = (2 : ℚ) ^ k := by
  unfold pow2
  split_ifs with h
  · obtain ⟨n, rfl⟩ := Int.eq_ofNat_of_zero_le h
    simp
  · push_neg at h
    obtain ⟨n, hn⟩ := Int.exists_eq_neg_ofNat (le_of_lt h)
    subst hn
    simp

theorem pow2_pos (k : Int) : 0 < pow2 k := by
  rw [pow2_eq]; positivity

theorem pow2_le_iff (a b : Int) : pow2 a ≤ pow2 b ↔ a ≤ b := by
  rw [pow2_eq, pow2_eq]
  exact zpow_le_zpow_iff_right₀ (by norm_num)

theorem pow2_pred (e : Int) : pow2 (e - 1) = pow2 e / 2 := by
  rw [pow2_eq, pow2_eq, zpow_sub₀ (by norm_num : (2 : ℚ) ≠ 0), zpow_one]

theorem log2Fuel_spec (fuel : Nat) : ∀ n : Nat, n ≤ fuel → 1 ≤ n →
    2 ^ log2Fuel fuel n ≤ n ∧ n < 2 ^ (log2Fuel fuel n + 1) := by
  induction fuel with
  | zero => intro n h1 h2; omega
  | succ fuel ih =>
    intro n h1 h2
    unfold log2Fuel
    split_ifs with h
    · constructor <;> simp <;> omega
    · obtain ⟨i1, i2⟩ := ih (n / 2) (by omega) (by omega)
      rw [pow_succ, pow_succ]
      constructor <;> omega

/-- The function `ilog2` is the binary logarithm rounded down. -/
theorem ilog2_spec (n : Nat) (h : 1 ≤ n) : 2 ^ ilog2 n ≤ n ∧ n < 2 ^ (ilog2 n + 1) :=
  log2Fuel_spec n n (le_refl n) h

theorem pow2_binade_le (x : ℚ) (hx : x ≠ 0) : pow2 (binade x) ≤ |x| := by
  unfold binade
  simp only
  split_ifs with h
  · exact h
  · have hn : 1 ≤ x.num.natAbs := by
      have : x.num ≠ 0 := Rat.num_ne_zero.mpr hx
      omega
    have hd : 1 ≤ x.den := x.den_pos
    obtain ⟨n1, _⟩ := ilog2_spec _ hn
    obtain ⟨_, d2⟩ := ilog2_spec _ hd
    have habs : |x| = (x.num.natAbs : ℚ) / (x.den : ℚ) := by
      rw [Rat.abs_def, Rat.divInt_eq_div]
      push_cast
      rw [Nat.cast_natAbs, Int.cast_abs]
    have e : pow2 ((ilog2 x.num.natAbs : Int) - (ilog2 x.den : Int) - 1)
        = (2 : ℚ) ^ (ilog2 x.num.natAbs) / (2 : ℚ) ^ (ilog2 x.den + 1) := by
      rw [pow2_eq, show ((ilog2 x.num.natAbs : Int) - (ilog2 x.den : Int) - 1)
          = (ilog2 x.num.natAbs : Int) - ((ilog2 x.den + 1 : Nat) : Int) by push_cast; ring,
        zpow_sub₀ (by norm_num : (2 : ℚ) ≠ 0), zpow_natCast, zpow_natCast]
    rw [e, habs]
    have q1 : (2 : ℚ) ^ (ilog2 x.num.natAbs) ≤ (x.num.natAbs : ℚ) := by exact_mod_cast n1
    have q2 : (x.den : ℚ) ≤ (2 : ℚ) ^ (ilog2 x.den + 1) := by exact_mod_cast le_of_lt d2
    have q3 : (0 : ℚ) < (x.den : ℚ) := by exact_mod_cast x.den_pos
    exact div_le_div₀ (by positivity) q1 q3 q2

theorem roundHalfEven_eq_zero_iff (y : ℚ) : roundHalfEven y = 0 ↔ |y| ≤ 1 / 2 := by
  have h1 : ((⌊y⌋ : Int) : ℚ) ≤ y := Int.floor_le y
  have h2 : y < ((⌊y⌋ : Int) : ℚ) + 1 := Int.lt_floor_add_one y
  unfold roundHalfEven
  simp only
  rw [abs_le]
  constructor
  · intro h
    split_ifs at h with c1 c2 c3
    · rw [h] at h1 h2 c1
      constructor <;> push_cast at * <;> linarith
    · have hf : ⌊y⌋ = -1 := by omega
      rw [hf] at h1 h2 c2
      constructor <;> push_cast at * <;> linarith
    · rw [h] at h1 h2 c1 c2
      constructor <;> push_cast at * <;> linarith
    · have hf : ⌊y⌋ = -1 := by omega
      rw [hf] at h1 h2 c1 c2
      constructor <;> push_cast at * <;> linarith
  · rintro ⟨l, u⟩
    have f1 : ⌊y⌋ < 1 := by
      have : ((⌊y⌋ : Int) : ℚ) < ((1 : Int) : ℚ) := by push_cast; linarith
      exact_mod_cast this
    have f2 : -2 < ⌊y⌋ := by
      have : ((-2 : Int) : ℚ) < ((⌊y⌋ : Int) : ℚ) := by push_cast; linarith
      exact_mod_cast this
    have hf : ⌊y⌋ = 0 ∨ ⌊y⌋ = -1 := by omega
    rcases hf with hf | hf
    · rw [hf] at h1 h2 ⊢
      split_ifs with c1 c2 c3
      · rfl
      · push_cast at *; linarith
      · rfl
      · exact absurd rfl c3
    · rw [hf] at h1 h2 ⊢
      split_ifs with c1 c2 c3
      · push_cast at *; linarith
      · rfl
      · exact absurd c3 (by decide)
      · rfl

/-- A number is rounded to zero exactly when its magnitude is at most half the
smallest positive number of the format. -/
theorem roundBinary_eq_zero_iff (p : Nat) (emin : Int) (x : ℚ) (hp : 1 ≤ p) :
    roundBinary p emin x = 0 ↔ |x| ≤ pow2 (emin - 1) := by
  by_cases hx : x = 0
  · subst hx
    simp [roundBinary, le_of_lt (pow2_pos _)]
  · have hb := pow2_binade_le x hx
    unfold roundBinary
    rw [if_neg hx]
    simp only
    have key : ∀ e : Int, ((roundHalfEven (x / pow2 e) : Int) : ℚ) * pow2 e = 0
        ↔ |x| ≤ pow2 (e - 1) := by
      intro e
      rw [mul_eq_zero, Int.cast_eq_zero, roundHalfEven_eq_zero_iff, abs_div,
        abs_of_pos (pow2_pos e), div_le_iff₀ (pow2_pos e), pow2_pred]
      constructor
      · rintro (h | h)
        · linarith
        · exact absurd h (ne_of_gt (pow2_pos e))
      · intro h; left; linarith
    rw [key]
    constructor
    · intro h
      rcases le_total (binade x - ((p : Int) - 1)) emin with c | c
      · rwa [max_eq_right c] at h
      · rw [max_eq_left c] at h
        have := (pow2_le_iff _ _).mp (le_trans hb h)
        omega
    · intro h
      have := (pow2_le_iff _ _).mp (le_trans hb h)
      rw [max_eq_right (by omega)]
      exact h

/-- A value narrowed to `float` is zero exactly when its magnitude is at most
`2^-150`, half the smallest positive `float`. -/
theorem toFloat_eq_zero_iff (x : ℚ) : toFloat x = 0 ↔ |x| ≤ pow2 (-150) :=
  roundBinary_eq_zero_iff 24 (-149) x (by decide)

theorem toFloat_ne_zero_iff (x : ℚ) : toFloat x ≠ 0 ↔ pow2 (-150) < |x| := by
  rw [Ne, toFloat_eq_zero_iff, not_le]

theorem pow2_neg150_le_one : pow2 (-150) ≤ 1 := by
  have h : pow2 (-150) ≤ pow2 0 := (pow2_le_iff _ _).mpr (by decide)
  have e : pow2 0 = 1 := by rw [pow2_eq]; simp
  rwa [e] at h

/-! ### The loop body in closed form -/

/-- The loop body for axis `i` in closed form: it overwrites component `i` of
the two bounds, the scale, the offset and the position, and nothing else. -/
theorem updateWorkspaceBodyRnd_eq (dbl : ℚ → ℚ) (i : Fin 3) (w : Workspace) (pos : Vec3) :
    updateWorkspaceBodyRnd dbl i (w, pos) =
      ({ m_resetWorkspace := w.m_resetWorkspace
         m_workspace0 := w.m_workspace0.set i (axisLo (w.m_workspace0.get i) (pos.get i))
         m_workspace1 := w.m_workspace1.set i (axisHi (w.m_workspace1.get i) (pos.get i))
         m_workspaceScale := w.m_workspaceScale.set i
           (axisScaleRnd dbl (axisLo (w.m_workspace0.get i) (pos.get i))
             (axisHi (w.m_workspace1.get i) (pos.get i)))
         m_workspaceOffset := w.m_workspaceOffset.set i
           (axisOffsetRnd dbl (axisLo (w.m_workspace0.get i) (pos.get i))
             (axisHi (w.m_workspace1.get i) (pos.get i))) },
       pos.set i
         (dbl (dbl (pos.get i + axisOffsetRnd dbl (axisLo (w.m_workspace0.get i) (pos.get i))
             (axisHi (w.m_workspace1.get i) (pos.get i)))
           * axisScaleRnd dbl (axisLo (w.m_workspace0.get i) (pos.get i))
             (axisHi (w.m_workspace1.get i) (pos.get i))))) := by
  simp only [updateWorkspaceBodyRnd, axisLo, axisHi, axisScaleRnd, axisOffsetRnd]
  split_ifs <;> simp_all [Vec3.get_set_same, Vec3.set_get_self]

/-- What `updateWorkspace` leaves on axis `i`: the expanded bounds, the scale
and offset computed from them, and the normalized component. -/
theorem updateWorkspaceRnd_axis (dbl : ℚ → ℚ) (w : Workspace) (pos : Vec3) (i : Fin 3) :
    (updateWorkspaceRnd dbl w pos).1.m_workspace0.get i
        = axisLo ((seedBound w w.m_workspace0 pos).get i) (pos.get i) ∧
    (updateWorkspaceRnd dbl w pos).1.m_workspace1.get i
        = axisHi ((seedBound w w.m_workspace1 pos).get i) (pos.get i) ∧
    (updateWorkspaceRnd dbl w pos).1.m_workspaceScale.get i
        = axisScaleRnd dbl (axisLo ((seedBound w w.m_workspace0 pos).get i) (pos.get i))
            (axisHi ((seedBound w w.m_workspace1 pos).get i) (pos.get i)) ∧
    (updateWorkspaceRnd dbl w pos).1.m_workspaceOffset.get i
        = axisOffsetRnd dbl (axisLo ((seedBound w w.m_workspace0 pos).get i) (pos.get i))
            (axisHi ((seedBound w w.m_workspace1 pos).get i) (pos.get i)) ∧
    (updateWorkspaceRnd dbl w pos).2.get i
        = dbl (dbl (pos.get i
            + axisOffsetRnd dbl (axisLo ((seedBound w w.m_workspace0 pos).get i) (pos.get i))
                (axisHi ((seedBound w w.m_workspace1 pos).get i) (pos.get i)))
          * axisScaleRnd dbl (axisLo ((seedBound w w.m_workspace0 pos).get i) (pos.get i))
            (axisHi ((seedBound w w.m_workspace1 pos).get i) (pos.get i))) := by
  unfold updateWorkspaceRnd seedBound
  cases w.m_resetWorkspace <;>
    simp only [List.foldl, updateWorkspaceBodyRnd_eq, if_true, if_false] <;>
    fin_cases i <;> simp [Vec3.get, Vec3.set]

/-- The axis formulas with exact double-precision arithmetic. -/
theorem updateWorkspace_axis (w : Workspace) (pos : Vec3) (i : Fin 3) :
    (updateWorkspace w pos).1.m_workspace0.get i
        = axisLo ((seedBound w w.m_workspace0 pos).get i) (pos.get i) ∧
    (updateWorkspace w pos).1.m_workspace1.get i
        = axisHi ((seedBound w w.m_workspace1 pos).get i) (pos.get i) ∧
    (updateWorkspace w pos).1.m_workspaceScale.get i
        = axisScale (axisLo ((seedBound w w.m_workspace0 pos).get i) (pos.get i))
            (axisHi ((seedBound w w.m_workspace1 pos).get i) (pos.get i)) ∧
    (updateWorkspace w pos).1.m_workspaceOffset.get i
        = axisOffset (axisLo ((seedBound w w.m_workspace0 pos).get i) (pos.get i))
            (axisHi ((seedBound w w.m_workspace1 pos).get i) (pos.get i)) ∧
    (updateWorkspace w pos).2.get i
        = (pos.get i + axisOffset (axisLo ((seedBound w w.m_workspace0 pos).get i) (pos.get i))
            (axisHi ((seedBound w w.m_workspace1 pos).get i) (pos.get i)))
          * axisScale (axisLo ((seedBound w w.m_workspace0 pos).get i) (pos.get i))
            (axisHi ((seedBound w w.m_workspace1 pos).get i) (pos.get i)) :=
  updateWorkspaceRnd_axis id w pos i

theorem axisLo_le (lo p : ℚ) : axisLo lo p ≤ p := by
  unfold axisLo; split_ifs with h
  · exact le_refl p
  · exact not_lt.mp h

theorem le_axisHi (hi p : ℚ) : p ≤ axisHi hi p := by
  unfold axisHi; split_ifs with h
  · exact le_refl p
  · exact not_lt.mp h

theorem axisLo_eq_min (lo p : ℚ) : axisLo lo p = min lo p := by
  unfold axisLo; split_ifs with h
  · exact (min_eq_right (le_of_lt h)).symm
  · exact (min_eq_left (not_lt.mp h)).symm

theorem axisHi_eq_max (hi p : ℚ) : axisHi hi p = max hi p := by
  unfold axisHi; split_ifs with h
  · exact (max_eq_right (le_of_lt h)).symm
  · exact (max_eq_left (not_lt.mp h)).symm

/-- The bounds after expansion are in order. -/
theorem axisLo_le_axisHi (lo hi p : ℚ) : axisLo lo p ≤ axisHi hi p :=
  le_trans (axisLo_le lo p) (le_axisHi hi p)

/-- A sample between the bounds is normalized into `[-1, 1]`, also when the
difference of the bounds is narrowed to zero and the scale is 1. -/
theorem axis_normalized_bound (lo hi p : ℚ) (h1 : lo ≤ p) (h2 : p ≤ hi) :
    -1 ≤ (p + axisOffset lo hi) * axisScale lo hi ∧
      (p + axisOffset lo hi) * axisScale lo hi ≤ 1 := by
  unfold axisOffset axisScale
  by_cases hd : toFloat (hi - lo) ≠ 0
  · have hne : hi - lo ≠ 0 := by
      intro hz
      apply hd
      rw [hz]
      rfl
    have hpos : 0 < hi - lo := lt_of_le_of_ne (by linarith) (Ne.symm hne)
    have e : (p + -(hi + lo) / 2) * (2 / (hi - lo)) = (2 * p - hi - lo) / (hi - lo) := by
      field_simp
      ring
    rw [if_pos hd, e]
    constructor
    · rw [le_div_iff₀ hpos]; linarith
    · rw [div_le_one hpos]; linarith
  · have hz : |hi - lo| ≤ pow2 (-150) := (toFloat_eq_zero_iff _).mp (not_not.mp hd)
    have hsmall : hi - lo ≤ 1 := le_trans (le_trans (le_abs_self _) hz) pow2_neg150_le_one
    rw [if_neg hd]
    constructor <;> linarith

/-- Every component of the position `updateWorkspace` returns lies in
`[-1, 1]`, whatever the workspace state before the call. -/
theorem updateWorkspace_in_cube (w : Workspace) (pos : Vec3) (i : Fin 3) :
    -1 ≤ (updateWorkspace w pos).2.get i ∧ (updateWorkspace w pos).2.get i ≤ 1 := by
  rw [(updateWorkspace_axis w pos i).2.2.2.2]
  exact axis_normalized_bound _ _ _ (axisLo_le _ _) (le_axisHi _ _)

theorem feedWorkspace_in_cube (ps : List Vec3) :
    ∀ (w : Workspace) (q : Vec3), q ∈ (feedWorkspace w ps).2 →
      ∀ i : Fin 3, -1 ≤ q.get i ∧ q.get i ≤ 1 := by
  induction ps with
  | nil => intro w q hq; simp [feedWorkspace] at hq
  | cons p ps ih =>
    intro w q hq i
    simp only [feedWorkspace, List.mem_cons] at hq
    rcases hq with rfl | hq
    · exact updateWorkspace_in_cube w p i
    · exact ih _ q hq i

/-- One normalized position is returned per sample. -/
theorem feedWorkspace_length (ps : List Vec3) :
    ∀ w : Workspace, (feedWorkspace w ps).2.length = ps.length := by
  induction ps with
  | nil => intro w; rfl
  | cons p ps ih => intro w; simp [feedWorkspace, ih]

/-- C1. Starting from any workspace in the reset state
(`m_resetWorkspace = true`), for every sequence of device positions fed one
by one to `HapticsSim::updateWorkspace`, one normalized position is returned
per sample and every component of every one of them lies in the closed
interval `[-1, 1]`. -/
theorem C1_workspace_positions_in_unit_cube (w : Workspace) (ps : List Vec3) :
    (feedWorkspace { w with m_resetWorkspace := true } ps).2.length = ps.length ∧
    ∀ q ∈ (feedWorkspace { w with m_resetWorkspace := true } ps).2,
      ∀ i : Fin 3, -1 ≤ q.get i ∧ q.get i ≤ 1 :=
  ⟨feedWorkspace_length ps _, fun q hq i => feedWorkspace_in_cube ps _ q hq i⟩

/-- C2, counterexample. On the machine (IEEE double precision), on the first
sample after a reset the expanded bounds coincide on every axis; the stored
scale is then 1, which is not `2/(max - min)` (no number times `max - min = 0`
is 2).  And after the samples 0 and `2^-160` the bounds on the first axis
differ, yet their difference narrowed to `float` is zero: the stored scale is
again 1, not `2/(max - min) = 2^161`, and the sample is mapped to `2^-161`. -/
theorem C2_counterexample_guard :
    (updateWorkspaceRnd toDouble resetWorkspace ⟨1, 2, 3⟩).1.m_workspace1.get 0
        - (updateWorkspaceRnd toDouble resetWorkspace ⟨1, 2, 3⟩).1.m_workspace0.get 0 = 0 ∧
    (updateWorkspaceRnd toDouble resetWorkspace ⟨1, 2, 3⟩).1.m_workspaceScale.get 0 = 1 ∧
    (updateWorkspaceRnd toDouble resetWorkspace ⟨1, 2, 3⟩).1.m_workspaceScale.get 0
        * ((updateWorkspaceRnd toDouble resetWorkspace ⟨1, 2, 3⟩).1.m_workspace1.get 0
            - (updateWorkspaceRnd toDouble resetWorkspace ⟨1, 2, 3⟩).1.m_workspace0.get 0)
        ≠ 2 ∧
    (feedWorkspaceRnd toDouble resetWorkspace
        [⟨0, 0, 0⟩, ⟨pow2 (-160), 0, 0⟩]).1.m_workspace0.get 0 = 0 ∧
    (feedWorkspaceRnd toDouble resetWorkspace
        [⟨0, 0, 0⟩, ⟨pow2 (-160), 0, 0⟩]).1.m_workspace1.get 0 = pow2 (-160) ∧
    (feedWorkspaceRnd toDouble resetWorkspace
        [⟨0, 0, 0⟩, ⟨pow2 (-160), 0, 0⟩]).1.m_workspaceScale.get 0 = 1 ∧
    (1 : ℚ) ≠ 2 / (pow2 (-160) - 0) ∧
    (feedWorkspaceRnd toDouble resetWorkspace [⟨0, 0, 0⟩, ⟨pow2 (-160), 0, 0⟩]).2
      = [⟨0, 0, 0⟩, ⟨pow2 (-161), 0, 0⟩] ∧
    (feedWorkspace resetWorkspace
        [⟨0, 0, 0⟩, ⟨pow2 (-160), 0, 0⟩]).1.m_workspaceScale.get 0 = 1 := by
  refine ⟨by decide!, by decide!, by decide!, by decide!, by decide!, by decide!,
    by decide!, by decide!, by decide!⟩

/-- C2, amended. For every sample `pos` and every axis `i`, whatever the
rounding `dbl` of a double-precision operation (the IEEE one on the machine,
none when arithmetic is taken as exact), `HapticsSim::updateWorkspace` first
expands `min_i` and `max_i` to include `pos_i` (after a reset both start from
`pos_i`), then sets `scale_i = 2/(max_i - min_i)` when the difference
`max_i - min_i` narrowed to `float` is not zero, which is when it exceeds
`2^-150`, and `scale_i = 1` otherwise, sets `offset_i = -(max_i + min_i)/2`,
and returns `p_i = (pos_i + offset_i) * scale_i`. -/
theorem C2_updateWorkspace_formulas (dbl : ℚ → ℚ) (w : Workspace) (pos : Vec3) (i : Fin 3) :
    (updateWorkspaceRnd dbl w pos).1.m_workspace0.get i
        = min ((if w.m_resetWorkspace then pos else w.m_workspace0).get i) (pos.get i) ∧
    (updateWorkspaceRnd dbl w pos).1.m_workspace1.get i
        = max ((if w.m_resetWorkspace then pos else w.m_workspace1).get i) (pos.get i) ∧
    (updateWorkspaceRnd dbl w pos).1.m_workspaceScale.get i
        = (if toFloat (dbl ((updateWorkspaceRnd dbl w pos).1.m_workspace1.get i
              - (updateWorkspaceRnd dbl w pos).1.m_workspace0.get i)) ≠ 0
            then dbl (2 / dbl ((updateWorkspaceRnd dbl w pos).1.m_workspace1.get i
              - (updateWorkspaceRnd dbl w pos).1.m_workspace0.get i))
            else 1) ∧
    (toFloat (dbl ((updateWorkspaceRnd dbl w pos).1.m_workspace1.get i
          - (updateWorkspaceRnd dbl w pos).1.m_workspace0.get i)) ≠ 0
      ↔ pow2 (-150) < |dbl ((updateWorkspaceRnd dbl w pos).1.m_workspace1.get i
          - (updateWorkspaceRnd dbl w pos).1.m_workspace0.get i)|) ∧
    (updateWorkspaceRnd dbl w pos).1.m_workspaceOffset.get i
        = dbl (-(dbl ((updateWorkspaceRnd dbl w pos).1.m_workspace1.get i
              + (updateWorkspaceRnd dbl w pos).1.m_workspace0.get i)) / 2) ∧
    (updateWorkspaceRnd dbl w pos).2.get i
        = dbl (dbl (pos.get i + (updateWorkspaceRnd dbl w pos).1.m_workspaceOffset.get i)
            * (updateWorkspaceRnd dbl w pos).1.m_workspaceScale.get i) := by
  obtain ⟨h0, h1, hs, ho, hp⟩ := updateWorkspaceRnd_axis dbl w pos i
  rw [hp, hs, ho, h0, h1]
  refine ⟨?_, ?_, rfl, toFloat_ne_zero_iff _, rfl, rfl⟩
  · rw [axisLo_eq_min]; rfl
  · rw [axisHi_eq_max]; rfl

/-! ## Theorems: collision bookkeeping -/

theorem wrapInt_of_range (n : Int) (h1 : -2147483648 ≤ n) (h2 : n < 2147483648) :
    wrapInt n = n := by
  unfold wrapInt; omega

theorem wrapInt_pred (n : Int) : wrapInt (wrapInt n - 1) = wrapInt (n - 1) := by
  unfold wrapInt; omega

theorem wrapInt_succ_pred (n : Int) : wrapInt (n + 1 - 1) = wrapInt n := by
  rw [add_sub_cancel_right]

/-- After `collidedWith(o, count)` the record for `o` is `count`, as an
`int`. -/
theorem collidedWith_record (me : OscObject) (self o : Ref) (v : Vec3) (count : Int) :
    (me.collidedWith self o v count).2.1.m_collisions o = some (wrapInt count) := by
  simp [OscObject.collidedWith, CollisionMap.assign]

/-- A call at `count` for a partner whose record is `count - 1` is not fresh
and sends nothing. -/
theorem collidedWith_not_fresh (me : OscObject) (self o : Ref) (v : Vec3) (count : Int)
    (h : me.m_collisions o = some (wrapInt (count - 1))) :
    (me.collidedWith self o v count).1 = false ∧
      (me.collidedWith self o v count).2.2 = [] := by
  simp [OscObject.collidedWith, CollisionMap.index, h, wrapInt_pred]

theorem collideRun_not_fresh (self o : Ref) (vs : List Vec3) :
    ∀ (me : OscObject) (n : Int), me.m_collisions o = some (wrapInt (n - 1)) →
      ∀ r ∈ (collideRun self o me n vs).1, r = (false, []) := by
  induction vs with
  | nil => intro me n _ r hr; simp [collideRun] at hr
  | cons v vs ih =>
    intro me n h r hr
    simp only [collideRun, List.mem_cons] at hr
    rcases hr with rfl | hr
    · exact Prod.ext (collidedWith_not_fresh me self o v n h).1
        (collidedWith_not_fresh me self o v n h).2
    · refine ih _ (n + 1) ?_ r hr
      rw [collidedWith_record, wrapInt_succ_pred]

/-- The result of `collidedWith(P, n)`, the record it leaves, and the records
it does not touch; `r` is what `m_collisions[P]` reads. -/
theorem collidedWith_result (me : OscObject) (self P : Ref) (v : Vec3) (n : Int) :
    ((me.collidedWith self P v n).1 = true
      ↔ (me.m_collisions P).getD 0 ≠ wrapInt (n - 1)) ∧
    (me.collidedWith self P v n).2.1.m_collisions P = some (wrapInt n) ∧
    ∀ Q : Ref, Q ≠ P →
      (me.collidedWith self P v n).2.1.m_collisions Q = me.m_collisions Q := by
  refine ⟨?_, collidedWith_record me self P v n, ?_⟩
  · cases h : me.m_collisions P <;>
      simp only [OscObject.collidedWith, CollisionMap.index, h, Option.getD, wrapInt_pred] <;>
      split_ifs with hc <;> simp_all
  · intro Q hQ
    cases h : me.m_collisions P <;>
      simp [OscObject.collidedWith, CollisionMap.index, CollisionMap.assign, h,
        Function.update_noteq hQ]

/-- C3, the code at the failing input. A newly constructed object holds no
record for any partner, and `collidedWith(P, 1)` on it returns false: for a
partner without a record `m_collisions[P]` inserts and reads 0, which is
`1 - 1`, so the first collision with a partner never seen, at step 1, is not
fresh.  The same holds for every object without a record for `P`; at every
other step count of the `int` range such a collision is fresh.  When a record
`r` exists, the result is true exactly when `r` differs from `n - 1` (computed
as an `int`), and in every case the record for `P` is `n` afterwards and the
records of all other partners are unchanged. -/
theorem C3_unseen_partner_not_fresh_at_step_one :
    HapticsSim.newObject.m_collisions (Ref.object 1) = none ∧
    (HapticsSim.newObject.collidedWith Ref.cursor (Ref.object 1) Vec3.zero 1).1 = false ∧
    (HapticsSim.newObject.collidedWith Ref.cursor (Ref.object 1) Vec3.zero 2).1 = true ∧
    (∀ (me : OscObject) (self P : Ref) (v : Vec3), me.m_collisions P = none →
      (me.collidedWith self P v 1).1 = false) ∧
    (∀ (me : OscObject) (self P : Ref) (v : Vec3) (n : Int), me.m_collisions P = none →
      -2147483648 ≤ n → n < 2147483648 →
        ((me.collidedWith self P v n).1 = true ↔ n ≠ 1)) ∧
    (∀ (me : OscObject) (self P : Ref) (v : Vec3) (n r : Int),
      me.m_collisions P = some r → -2147483648 ≤ n → n < 2147483648 →
        ((me.collidedWith self P v n).1 = true ↔ r ≠ wrapInt (n - 1)) ∧
        (-2147483648 < n → wrapInt (n - 1) = n - 1)) ∧
    (∀ (me : OscObject) (self P : Ref) (v : Vec3) (n : Int),
      -2147483648 ≤ n → n < 2147483648 →
        (me.collidedWith self P v n).2.1.m_collisions P = some n ∧
        ∀ Q : Ref, Q ≠ P →
          (me.collidedWith self P v n).2.1.m_collisions Q = me.m_collisions Q) := by
  refine ⟨rfl, by decide, by decide, ?_, ?_, ?_, ?_⟩
  · intro me self P v h
    have := (collidedWith_result me self P v 1).1
    rw [h] at this
    cases hb : (me.collidedWith self P v 1).1
    · rfl
    · exact absurd (this.mp hb) (by decide)
  · intro me self P v n h h1 h2
    have := (collidedWith_result me self P v n).1
    rw [h] at this
    rw [this]
    simp only [Option.getD]
    unfold wrapInt
    omega
  · intro me self P v n r h h1 h2
    have := (collidedWith_result me self P v n).1
    rw [h] at this
    refine ⟨this, fun h3 => ?_⟩
    unfold wrapInt
    omega
  · intro me self P v n h1 h2
    obtain ⟨_, hr, hq⟩ := collidedWith_result me self P v n
    rw [wrapInt_of_range n h1 h2] at hr
    exact ⟨hr, hq⟩

/-- C5. In a run of calls of `OscObject::collidedWith` for the same partner at
consecutive step counts `n`, `n+1`, ..., every call after the first returns
false and sends no collision message; so the run has at most one call that
returns true, and it can only be the first. -/
theorem C5_run_fresh_at_most_once (me : OscObject) (self P : Ref) (n : Int)
    (vs : List Vec3) :
    (∀ r ∈ (collideRun self P me n vs).1.tail, r = (false, [])) ∧
    ((collideRun self P me n vs).1.map Prod.fst).count true ≤ 1 := by
  have tail_ok : ∀ r ∈ (collideRun self P me n vs).1.tail, r = (false, []) := by
    cases vs with
    | nil => intro r hr; simp [collideRun] at hr
    | cons v vs =>
      intro r hr
      simp only [collideRun, List.tail_cons] at hr
      refine collideRun_not_fresh self P vs _ (n + 1) ?_ r hr
      rw [collidedWith_record, wrapInt_succ_pred]
  refine ⟨tail_ok, ?_⟩
  cases hl : (collideRun self P me n vs).1 with
  | nil => simp
  | cons a l =>
    rw [hl] at tail_ok
    simp only [List.tail_cons] at tail_ok
    have hz : (l.map Prod.fst).count true = 0 := by
      rw [List.count_eq_zero]
      intro hmem
      obtain ⟨r, hr, hfst⟩ := List.mem_map.mp hmem
      rw [tail_ok r hr] at hfst
      exact Bool.noConfusion hfst
    rw [List.map_cons, List.count_cons, hz]
    split_ifs <;> simp

/-- C4, the code at the failing input. After `initialize`, with collision
reporting enabled, a contact with world object 1 that lasts three ticks and
starts on the first tick produces no `/world/collide` event at all: neither
from `step` as it stands (its contact scan never finds an object), nor from
the contact block when it is handed the contact object (on the first tick
`m_counter` is 1 and an absent record reads as 0 = 1 - 1).  The same run
starting on a later tick, and a second run after a contact-free tick, each
produce one event on their first tick. -/
theorem C4_first_tick_contact_emits_no_collide :
    collideEvents
      (HapticsSim.run (HapticsSim.initSim baseSim) [touchInput, touchInput, touchInput]).2
        = [0, 0, 0] ∧
    contactEvents (HapticsSim.initSim baseSim)
      [some (Ref.object 1), some (Ref.object 1), some (Ref.object 1)] = [0, 0, 0] ∧
    contactEvents (HapticsSim.initSim baseSim)
      [none, some (Ref.object 1), some (Ref.object 1), some (Ref.object 1), none,
        some (Ref.object 1), some (Ref.object 1)] = [0, 1, 0, 0, 0, 1, 0] := by
  refine ⟨by decide!, by decide, by decide⟩

/-! ## Theorems: cursor dynamics -/

theorem extraForceTicks_succ (k : Nat) (c : OscCursorCHAI) :
    extraForceTicks (k + 1) c = (extraForceTicks k c).addCursorExtraForce :=
  Function.iterate_succ_apply' _ k c

/-- After `k` ticks a counter that started at `n` holds `n - k` (0 once it has
run out) and the stored overlay is unchanged. -/
theorem extraForceTicks_counter (k : Nat) :
    ∀ (c : OscCursorCHAI) (n : Nat), c.m_nExtraForceSteps = (n : Int) →
      (extraForceTicks k c).m_nExtraForceSteps = ((n - k : Nat) : Int) ∧
      (extraForceTicks k c).m_extraForce = c.m_extraForce := by
  induction k with
  | zero => intro c n h; exact ⟨by simpa [extraForceTicks] using h, rfl⟩
  | succ k ih =>
    intro c n h
    obtain ⟨h1, h2⟩ := ih c n h
    rw [extraForceTicks_succ]
    unfold OscCursorCHAI.addCursorExtraForce
    split_ifs with hpos
    · refine ⟨?_, ?_⟩
      · simp only [OscCursorCHAI.addDeviceGlobalForce, h1]
        rw [h1] at hpos
        omega
      · simpa [OscCursorCHAI.addDeviceGlobalForce] using h2
    · refine ⟨?_, h2⟩
      rw [h1] at hpos ⊢
      omega

/-- C6, counterexample. With `physics_timestep_ms = 10` and
`haptics_timestep_ms = 3` the claimed count is `ceil(20/3) = 7`, but the
seventh tick after `on_force` adds nothing to the device force although the
overlay (1, 0, 0) is not zero: the overlay is applied on 6 ticks only.  And
with `physics_timestep_ms = 2^30` and `haptics_timestep_ms = 1` the `int`
product `physics_timestep_ms*2` wraps around to `-2^31`: the stored count is
negative and not even the first tick adds the overlay. -/
theorem C6_counterexample_ceiling :
    ⌈((2 * 10 : ℚ) / 3)⌉ = 7 ∧
    (extraForceTicks 6 (pushedCursor.on_force 10 3)).deviceGlobalForce = ⟨6, 0, 0⟩ ∧
    (extraForceTicks 7 (pushedCursor.on_force 10 3)).deviceGlobalForce = ⟨6, 0, 0⟩ ∧
    (extraForceTicks 7 (pushedCursor.on_force 10 3)).deviceGlobalForce
      ≠ (extraForceTicks 6 (pushedCursor.on_force 10 3)).deviceGlobalForce.add
          pushedCursor.m_force ∧
    (pushedCursor.on_force 1073741824 1).m_nExtraForceSteps = -2147483648 ∧
    (extraForceTicks 1 (pushedCursor.on_force 1073741824 1)).deviceGlobalForce
      = (pushedCursor.on_force 1073741824 1).deviceGlobalForce ∧
    (extraForceTicks 1 (pushedCursor.on_force 1073741824 1)).deviceGlobalForce
      ≠ (pushedCursor.on_force 1073741824 1).deviceGlobalForce.add pushedCursor.m_force := by
  refine ⟨?_, by decide!, by decide!, by decide!, by decide!, by decide!, by decide!⟩
  rw [Int.ceil_eq_iff]
  norm_num

/-- C6, amended. After `OscCursorCHAI::on_force` with timesteps of `P` and `H`
milliseconds, where `P < 2^30` (so that the `int` product `P*2` does not
overflow) and `H > 0`, the tick with index `k` (counted from 0) of
`OscCursorCHAI::addCursorExtraForce` adds the stored overlay force, the value
of the force property at the time of `on_force`, to the device force exactly
when `k < floor(2 * P / H)`, and leaves the device force unchanged on every
later tick: the overlay acts on exactly `floor(2 * P / H)` consecutive ticks
(20 ticks at 10 ms / 1 ms). -/
theorem C6_extraForce_on_floor_ticks (P H : Nat) (_hH : 0 < H) (hP : P < 1073741824)
    (c : OscCursorCHAI) (k : Nat) :
    (k < P * 2 / H →
      (extraForceTicks (k + 1) (c.on_force P H)).deviceGlobalForce
        = (extraForceTicks k (c.on_force P H)).deviceGlobalForce.add c.m_force) ∧
    (P * 2 / H ≤ k →
      (extraForceTicks (k + 1) (c.on_force P H)).deviceGlobalForce
        = (extraForceTicks k (c.on_force P H)).deviceGlobalForce) ∧
    ((P * 2 / H : Nat) : ℤ) = ⌊((2 * P : ℚ) / H)⌋ := by
  have hw : wrapInt ((P : Int) * 2) = (P : Int) * 2 :=
    wrapInt_of_range _ (by omega) (by omega)
  have hn : (c.on_force P H).m_nExtraForceSteps = ((P * 2 / H : Nat) : Int) := by
    simp only [OscCursorCHAI.on_force, hw]
    rw [Int.ofNat_tdiv]
    push_cast
    rfl
  obtain ⟨h1, h2⟩ := extraForceTicks_counter k (c.on_force P H) (P * 2 / H) hn
  have hF : (c.on_force P H).m_extraForce = c.m_force := rfl
  refine ⟨?_, ?_, ?_⟩
  · intro hk
    rw [extraForceTicks_succ]
    unfold OscCursorCHAI.addCursorExtraForce
    have hpos : (extraForceTicks k (c.on_force P H)).m_nExtraForceSteps > 0 := by
      rw [h1]; omega
    rw [if_pos hpos]
    simp only [OscCursorCHAI.addDeviceGlobalForce, h2, hF]
  · intro hk
    rw [extraForceTicks_succ]
    unfold OscCursorCHAI.addCursorExtraForce
    have hpos : ¬ (extraForceTicks k (c.on_force P H)).m_nExtraForceSteps > 0 := by
      rw [h1]; omega
    rw [if_neg hpos]
  · have e : ((2 * P : ℚ) / H) = (((P * 2 : Nat) : ℤ) : ℚ) / (H : ℚ) := by
      push_cast
      ring
    rw [e, Rat.floor_intCast_div_natCast]
    push_cast
    rfl

/-- Witness for C6 at 10 ms / 1 ms: the tick with index 19 (the twentieth)
adds the overlay, the tick with index 20 does not. -/
theorem C6_extraForce_on_floor_ticks_witness :
    (0 < 1) ∧ (10 < 1073741824) ∧
    ((19 < 10 * 2 / 1 →
      (extraForceTicks (19 + 1) (pushedCursor.on_force (10 : Nat) (1 : Nat))).deviceGlobalForce
        = (extraForceTicks 19 (pushedCursor.on_force (10 : Nat) (1 : Nat))).deviceGlobalForce.add
            pushedCursor.m_force) ∧
    (10 * 2 / 1 ≤ 19 →
      (extraForceTicks (19 + 1) (pushedCursor.on_force (10 : Nat) (1 : Nat))).deviceGlobalForce
        = (extraForceTicks 19
            (pushedCursor.on_force (10 : Nat) (1 : Nat))).deviceGlobalForce) ∧
    ((10 * 2 / 1 : Nat) : ℤ) = ⌊((2 * (10 : Nat) : ℚ) / (1 : Nat))⌋) :=
  ⟨by decide, by decide,
    C6_extraForce_on_floor_ticks 10 1 (by decide) (by decide) pushedCursor 19⟩

/-- C7. For every cursor mass `m > 0`, one call of
`OscCursorCHAI::addCursorMassForce` performs the spring-damper step with
`k = 10`, `b = 0.001`: on every axis, with `dx = x_d - x_m` and
`F = -k*dx - b*(dx - dx_prev)/dt`, it stores `dx` as the new `dx_prev`, moves
the mass to `x_m + v_m*dt` (old `v_m`), sets `v_m` to `v_m - (F/m)*dt` and
adds `10*F` to the device force; device position and mass are unchanged. -/
theorem C7_mass_force_spring_damper (c : OscCursorCHAI) (dt : ℚ) (hm : 0 < c.m_mass)
    (i : Fin 3) :
    (c.addCursorMassForce dt).m_lastPosDiff.get i
        = c.deviceGlobalPos.get i - c.m_massPos.get i ∧
    (c.addCursorMassForce dt).m_massPos.get i
        = c.m_massPos.get i + c.m_massVel.get i * dt ∧
    (c.addCursorMassForce dt).m_massVel.get i
        = c.m_massVel.get i
          - ((-10 * (c.deviceGlobalPos.get i - c.m_massPos.get i)
              - (1 / 1000) * (((c.deviceGlobalPos.get i - c.m_massPos.get i)
                  - c.m_lastPosDiff.get i) / dt)) / c.m_mass) * dt ∧
    (c.addCursorMassForce dt).deviceGlobalForce.get i
        = c.deviceGlobalForce.get i
          + 10 * (-10 * (c.deviceGlobalPos.get i - c.m_massPos.get i)
              - (1 / 1000) * (((c.deviceGlobalPos.get i - c.m_massPos.get i)
                  - c.m_lastPosDiff.get i) / dt)) ∧
    (c.addCursorMassForce dt).deviceGlobalPos = c.deviceGlobalPos ∧
    (c.addCursorMassForce dt).m_mass = c.m_mass := by
  have hnot : ¬ c.m_mass ≤ 0 := not_le.mpr hm
  simp only [OscCursorCHAI.addCursorMassForce, if_neg hnot,
    OscCursorCHAI.addDeviceGlobalForce]
  fin_cases i <;>
    simp only [Vec3.get, Vec3.add, Vec3.sub, Vec3.mul, Vec3.div] <;>
    refine ⟨trivial, trivial, ?_, ?_, trivial, trivial⟩ <;> ring

/-- Witness for C7: a cursor of mass 2, timestep 1 ms, the x axis. -/
theorem C7_mass_force_spring_damper_witness :
    0 < heavyCursor.m_mass ∧
    (heavyCursor.addCursorMassForce (1 / 1000)).deviceGlobalForce = ⟨-110, 0, 3⟩ ∧
    (heavyCursor.addCursorMassForce (1 / 1000)).deviceGlobalForce.get 0
        = heavyCursor.deviceGlobalForce.get 0
          + 10 * (-10 * (heavyCursor.deviceGlobalPos.get 0 - heavyCursor.m_massPos.get 0)
              - (1 / 1000) * (((heavyCursor.deviceGlobalPos.get 0 - heavyCursor.m_massPos.get 0)
                  - heavyCursor.m_lastPosDiff.get 0) / (1 / 1000))) :=
  ⟨by decide!, by decide!,
    (C7_mass_force_spring_damper heavyCursor (1 / 1000) (by decide!) 0).2.2.2.1⟩

/-- C8. For every cursor mass `m <= 0`, `OscCursorCHAI::addCursorMassForce`
adds no force to the device and makes the virtual mass track the device:
afterwards the mass position equals the device position and the mass velocity
equals (device position - previous mass position)/dt. -/
theorem C8_massless_tracks_device (c : OscCursorCHAI) (dt : ℚ) (hm : c.m_mass ≤ 0) :
    (c.addCursorMassForce dt).deviceGlobalForce = c.deviceGlobalForce ∧
    (c.addCursorMassForce dt).m_massPos = c.deviceGlobalPos ∧
    (∀ i : Fin 3, (c.addCursorMassForce dt).m_massVel.get i
        = (c.deviceGlobalPos.get i - c.m_massPos.get i) / dt) ∧
    (c.addCursorMassForce dt).deviceGlobalPos = c.deviceGlobalPos := by
  simp only [OscCursorCHAI.addCursorMassForce, if_pos hm]
  refine ⟨trivial, trivial, ?_, trivial⟩
  intro i
  fin_cases i <;> rfl

/-- Witness for C8: the massless cursor, timestep 1 ms. -/
theorem C8_massless_tracks_device_witness :
    lightCursor.m_mass ≤ 0 ∧
    (lightCursor.addCursorMassForce (1 / 1000)).deviceGlobalForce = ⟨0, 0, 3⟩ ∧
    (lightCursor.addCursorMassForce (1 / 1000)).m_massPos = ⟨1, 0, 0⟩ ∧
    (lightCursor.addCursorMassForce (1 / 1000)).m_massVel = ⟨1000, 0, 0⟩ ∧
    (lightCursor.addCursorMassForce (1 / 1000)).deviceGlobalForce
      = lightCursor.deviceGlobalForce :=
  ⟨by decide!, by decide!, by decide!, by decide!,
    (C8_massless_tracks_device lightCursor (1 / 1000) (by decide!)).1⟩

/-! ## Theorems: grabbing -/

/-- C9. `OscCursorCHAI::addCursorGrabbedForce` adds exactly
`F = -10*(c - o) - 0.001*v` to the device force (`c` the cursor position, `v`
its velocity, `o` the position of the grabbed object), and a tick of
`HapticsSim::step` with a grabbed object `g` discards the previous device
force: the force it applies to the device is `F`, computed from the cursor
position and velocity of this tick, plus the extra-force overlay while one is
pending; neither the force left by the previous tick nor the interaction force
enters it. -/
theorem C9_grabbed_force_replaces_device_force (inp : DeviceInput) (s : HapticsSim)
    (g : Ref) (hg : s.m_pGrabbedObject = some g) (i : Fin 3) :
    (∀ (c : OscCursorCHAI) (o : Vec3),
      (c.addCursorGrabbedForce o).deviceGlobalForce.get i
        = c.deviceGlobalForce.get i
          + (-10 * (c.m_position.get i - o.get i) - (1 / 1000) * c.m_velocity.get i)) ∧
    (HapticsSim.step inp s).2.appliedForce.get i
      = (-10 * ((HapticsSim.step inp s).1.m_cursor.m_position.get i
              - ((HapticsSim.step inp s).1.getObj g).m_position.get i)
          - (1 / 1000) * (HapticsSim.step inp s).1.m_cursor.m_velocity.get i)
        + (if s.m_cursor.m_nExtraForceSteps > 0 then s.m_cursor.m_extraForce.get i else 0) ∧
    (HapticsSim.step inp s).1.m_cursor.m_position = (updateWorkspace s.workspace inp.devicePos).2 ∧
    (HapticsSim.step inp s).1.m_cursor.m_velocity = inp.deviceVel := by
  refine ⟨?_, ?_, ?_, ?_⟩
  · intro c o
    simp only [OscCursorCHAI.addCursorGrabbedForce, OscCursorCHAI.addDeviceGlobalForce]
    fin_cases i <;> simp only [Vec3.get, Vec3.add, Vec3.sub, Vec3.mul] <;> ring
  · cases g with
    | cursor =>
      simp only [HapticsSim.step, hg, HapticsSim.findContactObject, HapticsSim.stepContact,
        HapticsSim.getObj, OscCursorCHAI.addCursorGrabbedForce,
        OscCursorCHAI.addDeviceGlobalForce, OscCursorCHAI.setDeviceGlobalForce,
        OscCursorCHAI.addCursorExtraForce]
      split_ifs <;> fin_cases i <;>
        simp [Vec3.get, Vec3.add, Vec3.sub, Vec3.mul, Vec3.zero] <;> ring
    | object id =>
      simp only [HapticsSim.step, hg, HapticsSim.findContactObject, HapticsSim.stepContact,
        HapticsSim.getObj, OscCursorCHAI.addCursorGrabbedForce,
        OscCursorCHAI.addDeviceGlobalForce, OscCursorCHAI.setDeviceGlobalForce,
        OscCursorCHAI.addCursorExtraForce]
      split_ifs <;> fin_cases i <;>
        simp [Vec3.get, Vec3.add, Vec3.sub, Vec3.mul, Vec3.zero] <;> ring
  · simp only [HapticsSim.step, hg, HapticsSim.findContactObject, HapticsSim.stepContact,
      OscCursorCHAI.addCursorGrabbedForce,
      OscCursorCHAI.addDeviceGlobalForce, OscCursorCHAI.setDeviceGlobalForce,
      OscCursorCHAI.addCursorExtraForce]
    split_ifs <;> rfl
  · simp only [HapticsSim.step, hg, HapticsSim.findContactObject, HapticsSim.stepContact,
      OscCursorCHAI.addCursorGrabbedForce,
      OscCursorCHAI.addDeviceGlobalForce, OscCursorCHAI.setDeviceGlobalForce,
      OscCursorCHAI.addCursorExtraForce]
    split_ifs <;> rfl

/-- Witness for C9: object 1 grabbed at the origin, the cursor at rest at
(1, 0, 0), a previous device force (5, 5, 5) and an interaction force
(0, 0, 1): the device receives (-10, 0, 0). -/
theorem C9_grabbed_force_replaces_device_force_witness :
    grabbedSim.m_pGrabbedObject = some (Ref.object 1) ∧
    (HapticsSim.step restInput grabbedSim).1.m_cursor.m_position = ⟨1, 0, 0⟩ ∧
    (HapticsSim.step restInput grabbedSim).2.appliedForce = ⟨-10, 0, 0⟩ ∧
    (HapticsSim.step restInput grabbedSim).2.appliedForce.get 0
      = (-10 * ((HapticsSim.step restInput grabbedSim).1.m_cursor.m_position.get 0
              - ((HapticsSim.step restInput grabbedSim).1.getObj (Ref.object 1)).m_position.get 0)
          - (1 / 1000) * (HapticsSim.step restInput grabbedSim).1.m_cursor.m_velocity.get 0)
        + (if grabbedSim.m_cursor.m_nExtraForceSteps > 0
            then grabbedSim.m_cursor.m_extraForce.get 0 else 0) :=
  ⟨rfl, by decide!, by decide!,
    (C9_grabbed_force_replaces_device_force restInput grabbedSim (Ref.object 1) rfl 0).2.1⟩

theorem getObj_setObj_same (s : HapticsSim) (r : Ref) (o : OscObject) :
    (s.setObj r o).getObj r = o := by
  cases r <;> simp [HapticsSim.setObj, HapticsSim.getObj]

theorem getObj_setObj_ne (s : HapticsSim) (r q : Ref) (o : OscObject) (h : q ≠ r) :
    (s.setObj r o).getObj q = s.getObj q := by
  cases r <;> cases q <;> simp_all [HapticsSim.setObj, HapticsSim.getObj]

theorem setObj_grabbed (s : HapticsSim) (r : Ref) (o : OscObject) :
    (s.setObj r o).m_pGrabbedObject = s.m_pGrabbedObject := by
  cases r <;> rfl

/-- The effect of `setHapticEnabled` on the objects: the flag of `r` is set,
all else is as before. -/
theorem setHapticEnabled_getObj (s : HapticsSim) (r q : Ref) (v : Bool) :
    ((s.setHapticEnabled r v).getObj q).hapticEnabled
        = (if q = r then v else (s.getObj q).hapticEnabled) ∧
    ((s.setHapticEnabled r v).getObj q).m_pSpecial = (s.getObj q).m_pSpecial ∧
    (s.setHapticEnabled r v).m_pGrabbedObject = s.m_pGrabbedObject := by
  unfold HapticsSim.setHapticEnabled
  refine ⟨?_, ?_, setObj_grabbed _ _ _⟩
  · by_cases h : q = r
    · subst h; rw [getObj_setObj_same]; simp
    · rw [getObj_setObj_ne _ _ _ _ h]; simp [h]
  · by_cases h : q = r
    · subst h; rw [getObj_setObj_same]
    · rw [getObj_setObj_ne _ _ _ _ h]

/-- The state `set_grabbed(B)` produces when the grabbed object `A` and `B`
both have a haptic representation. -/
theorem set_grabbed_swap_state (s : HapticsSim) (A B : Ref) (obInit : Option Ref)
    (hAB : A ≠ B) (hA : (s.getObj A).m_pSpecial = true) (hB : (s.getObj B).m_pSpecial = true)
    (hg : s.m_pGrabbedObject = some A) :
    (HapticsSim.set_grabbed obInit (some B) s).1
      = HapticsSim.setHapticEnabled
          { s.setHapticEnabled A true with m_pGrabbedObject := some B } B false := by
  have hB1 : (HapticsSim.getObj
      { s.setHapticEnabled A true with m_pGrabbedObject := some B } B).m_pSpecial = true := by
    have := (setHapticEnabled_getObj s A B true).2.1
    cases B <;> simp_all [HapticsSim.getObj]
  simp [HapticsSim.set_grabbed, HapticsSim.Simulation_set_grabbed, hg,
    HapticsSim.chaiObjectOf, hA, hB1]

/-- C10. For two distinct objects `A` and `B` with a haptic representation,
`HapticsSim::set_grabbed(B)` called while `A` is the grabbed object re-enables
haptic contact for `A`, disables it for `B`, and leaves `B` as the grabbed
object (the one the simulation holds in `m_pGrabbedObject`); the haptic
contact flag of every other object is unchanged. -/
theorem C10_set_grabbed_swaps_grab (s : HapticsSim) (A B : Ref) (obInit : Option Ref)
    (hAB : A ≠ B) (hA : (s.getObj A).m_pSpecial = true) (hB : (s.getObj B).m_pSpecial = true)
    (hg : s.m_pGrabbedObject = some A) :
    (((HapticsSim.set_grabbed obInit (some B) s).1).getObj A).hapticEnabled = true ∧
    (((HapticsSim.set_grabbed obInit (some B) s).1).getObj B).hapticEnabled = false ∧
    (HapticsSim.set_grabbed obInit (some B) s).1.m_pGrabbedObject = some B ∧
    ∀ C : Ref, C ≠ A → C ≠ B →
      (((HapticsSim.set_grabbed obInit (some B) s).1).getObj C).hapticEnabled
        = (s.getObj C).hapticEnabled := by
  rw [set_grabbed_swap_state s A B obInit hAB hA hB hg]
  have frame : ∀ q : Ref, (HapticsSim.getObj
      { s.setHapticEnabled A true with m_pGrabbedObject := some B } q)
        = (s.setHapticEnabled A true).getObj q := by
    intro q; cases q <;> rfl
  refine ⟨?_, ?_, ?_, ?_⟩
  · rw [(setHapticEnabled_getObj _ B A false).1, if_neg hAB, frame,
      (setHapticEnabled_getObj s A A true).1, if_pos rfl]
  · rw [(setHapticEnabled_getObj _ B B false).1, if_pos rfl]
  · rw [(setHapticEnabled_getObj _ B B false).2.2]
  · intro C hCA hCB
    rw [(setHapticEnabled_getObj _ B C false).1, if_neg hCB, frame,
      (setHapticEnabled_getObj s A C true).1, if_neg hCA]

/-- Witness for C10: object 1 is grabbed (haptic contact disabled) and
object 2 is grabbed next. -/
theorem C10_set_grabbed_swaps_grab_witness :
    Ref.object 1 ≠ Ref.object 2 ∧
    (grabbedSim.getObj (Ref.object 1)).m_pSpecial = true ∧
    (grabbedSim.getObj (Ref.object 2)).m_pSpecial = true ∧
    grabbedSim.m_pGrabbedObject = some (Ref.object 1) ∧
    (grabbedSim.getObj (Ref.object 1)).hapticEnabled = false ∧
    (((HapticsSim.set_grabbed none (some (Ref.object 2)) grabbedSim).1).getObj
      (Ref.object 1)).hapticEnabled = true ∧
    (((HapticsSim.set_grabbed none (some (Ref.object 2)) grabbedSim).1).getObj
      (Ref.object 2)).hapticEnabled = false ∧
    (HapticsSim.set_grabbed none (some (Ref.object 2)) grabbedSim).1.m_pGrabbedObject
      = some (Ref.object 2) :=
  ⟨by decide, by decide, by decide, rfl, by decide,
    (C10_set_grabbed_swaps_grab grabbedSim (Ref.object 1) (Ref.object 2) none
      (by decide) (by decide) (by decide) rfl).1,
    (C10_set_grabbed_swaps_grab grabbedSim (Ref.object 1) (Ref.object 2) none
      (by decide) (by decide) (by decide) rfl).2.1,
    (C10_set_grabbed_swaps_grab grabbedSim (Ref.object 1) (Ref.object 2) none
      (by decide) (by decide) (by decide) rfl).2.2.1⟩

/-! ## Theorems: the proxy object -/

/-- C12, the code at the failing input. While object 1 is grabbed,
`set_grabbed` with no object (the release) sends `/world/cursor/visible 0`,
not 1, whatever the local `ob` held at entry: `ob` still points to the
representation of the object that was released.  Grabbing object 2 sends 0 as
claimed, and a release while nothing is grabbed sends what the uninitialised
`ob` decides. -/
theorem C12_release_keeps_cursor_hidden :
    (∀ obInit : Option Ref,
      (HapticsSim.set_grabbed obInit none grabbedSim).2 = [OscMsg.cursorVisible 0]) ∧
    (∀ obInit : Option Ref,
      (HapticsSim.set_grabbed obInit (some (Ref.object 2)) grabbedSim).2
        = [OscMsg.cursorVisible 0]) ∧
    (∀ obInit : Option Ref,
      (HapticsSim.set_grabbed obInit none baseSim).2
        = [OscMsg.cursorVisible (if obInit.isSome then 0 else 1)]) := by
  refine ⟨fun obInit => ?_, fun obInit => ?_, fun obInit => ?_⟩
  · rfl
  · rfl
  · rfl

/-! ## Theorems: the contact object -/

/-- `collidedWith` sends no push message. -/
theorem collidedWith_no_push (s : HapticsSim) (a b : Ref) (n : Int) :
    (s.collidedWith a b n).2.2.countP isPush = 0 := by
  simp only [HapticsSim.collidedWith, OscObject.collidedWith]
  split_ifs <;> simp [isPush]

/-- C18, the code at the failing input. As the sources stand, no tick of
`HapticsSim::step` sends a push message, whatever the force algorithms report:
on the tick `touchInput`, where the first algorithm reports a contact with
object 1, the message list holds the cursor position only.  The block that
follows `findContactObject` is as claimed: handed a contact object it sends
exactly one push message, with the negated last force and the last contact
point, and with no contact object it sends nothing. -/
theorem C18_step_sends_no_push :
    (∀ (inp : DeviceInput) (s : HapticsSim),
      (HapticsSim.step inp s).2.msgs.countP isPush = 0) ∧
    firstContact touchInput.algoContacts = some (Ref.object 1, ⟨0, 0, 0⟩) ∧
    (HapticsSim.step touchInput (HapticsSim.initSim baseSim)).2.msgs
      = [OscMsg.cursorPosition [SimType.visual] ⟨0, 0, 0⟩] ∧
    (∀ (s : HapticsSim) (co : Ref), s.m_pContactObject = some co →
      (HapticsSim.stepContact s).2.head?
          = some (OscMsg.push co s.m_lastForce.neg s.m_lastContactPoint) ∧
      (HapticsSim.stepContact s).2.countP isPush = 1) ∧
    (∀ s : HapticsSim, s.m_pContactObject = none → (HapticsSim.stepContact s).2 = []) := by
  refine ⟨?_, by decide, by decide!, ?_, ?_⟩
  · intro inp s
    simp only [HapticsSim.step, HapticsSim.findContactObject, HapticsSim.stepContact]
    simp [isPush]
  · intro s co h
    simp only [HapticsSim.stepContact, h]
    refine ⟨by simp, ?_⟩
    simp only [List.countP_append, collidedWith_no_push]
    split_ifs <;> simp [isPush]
  · intro s h
    simp [HapticsSim.stepContact, h]

/-- C19, the code at the failing input. `HapticsSim::findContactObject` sets
the contact object to none and leaves the recorded contact point and last
force as they were, whatever the force algorithms report; on the tick
`touchInput` the first algorithm reports a contact with object 1, which the
scan of the specification would select. -/
theorem C19_findContactObject_finds_nothing :
    (∀ (inp : DeviceInput) (s : HapticsSim),
      (HapticsSim.findContactObject inp s).m_pContactObject = none ∧
      (HapticsSim.findContactObject inp s).m_lastContactPoint = s.m_lastContactPoint ∧
      (HapticsSim.findContactObject inp s).m_lastForce = s.m_lastForce) ∧
    firstContact touchInput.algoContacts = some (Ref.object 1, ⟨0, 0, 0⟩) ∧
    (HapticsSim.findContactObject touchInput
      { baseSim with m_pContactObject := some (Ref.object 1) }).m_pContactObject = none :=
  ⟨fun _ _ => ⟨rfl, rfl, rfl⟩, by decide, rfl⟩

/-! ## Theorems: constraint responses -/

/-- C20, counterexample. On the physics thread the `/response/spring` handler
called with (3, 1) leaves stiffness 7 and damping 5 as they were. -/
theorem C20_counterexample_physics_thread :
    (OscConstraint.responseSpring_handler [3, 1] DimpleThread.physics
      sampleConstraint).m_stiffness = 7 ∧
    (OscConstraint.responseSpring_handler [3, 1] DimpleThread.physics
      sampleConstraint).m_damping = 5 ∧
    (OscConstraint.responseSpring_handler [3, 1] DimpleThread.physics
      sampleConstraint).m_stiffness ≠ 3 := by
  decide!

/-- C20, amended. For every `k` and `b`, `OscConstraint::responseSpring_handler`
called on the haptics thread with arguments `(k, b)` sets the stiffness of the
constraint to `k` and its damping to `b` and leaves its participants alone;
called on any other thread it changes nothing. -/
theorem C20_responseSpring_on_haptics_thread (k b : ℚ) (me : OscConstraint) :
    (OscConstraint.responseSpring_handler [k, b] DimpleThread.haptics me).m_stiffness = k ∧
    (OscConstraint.responseSpring_handler [k, b] DimpleThread.haptics me).m_damping = b ∧
    (OscConstraint.responseSpring_handler [k, b] DimpleThread.haptics me).m_object1
      = me.m_object1 ∧
    (OscConstraint.responseSpring_handler [k, b] DimpleThread.haptics me).m_object2
      = me.m_object2 ∧
    (∀ thread : DimpleThread, thread ≠ DimpleThread.haptics →
      OscConstraint.responseSpring_handler [k, b] thread me = me) := by
  refine ⟨rfl, rfl, rfl, rfl, fun thread h => ?_⟩
  simp [OscConstraint.responseSpring_handler, h]

/-! ## Theorems: the haptic object factories -/

/-- A create request for a registered name: the factory answers false and the
registry is unchanged, but the shape made by the constructor stays in the
CHAI world. -/
theorem create_registered_name (name : Name) (x y z : ℚ) (w : HapticScene)
    (h : w.registered.any (fun e => e.1 = name) = true) :
    (w.sphereCreate name x y z).1 = false ∧
    (w.sphereCreate name x y z).2.registered = w.registered ∧
    (w.sphereCreate name x y z).2.chaiChildren = w.chaiChildren ++ [w.nextShape] ∧
    (w.prismCreate name x y z).1 = false ∧
    (w.prismCreate name x y z).2.registered = w.registered ∧
    (w.prismCreate name x y z).2.chaiChildren = w.chaiChildren ++ [w.nextShape] := by
  simp only [HapticScene.sphereCreate, HapticScene.prismCreate, HapticScene.add_object,
    HapticScene.newShapeObject, h]
  simp

/-- C16, the code at the failing input. With the sphere `s1` registered, a
second request to create `s1` (sphere or prism) is rejected by `add_object`:
the factory returns false and the registered objects are unchanged, but the
CHAI world has gained a child, the shape the constructor added before the
rejection, and the rejected object is still allocated.  The same holds for
every rejected request. -/
theorem C16_rejected_create_leaves_shape_in_world :
    (HapticScene.sphereCreate ['s', '1'] 0 0 0 HapticScene.withS1).1 = false ∧
    (HapticScene.sphereCreate ['s', '1'] 0 0 0 HapticScene.withS1).2.registered
      = HapticScene.withS1.registered ∧
    HapticScene.withS1.chaiChildren = [0] ∧
    (HapticScene.sphereCreate ['s', '1'] 0 0 0 HapticScene.withS1).2.chaiChildren = [0, 1] ∧
    (HapticScene.prismCreate ['s', '1'] 0 0 0 HapticScene.withS1).1 = false ∧
    (HapticScene.prismCreate ['s', '1'] 0 0 0 HapticScene.withS1).2.chaiChildren = [0, 1] ∧
    (HapticScene.sphereCreate ['s', '1'] 0 0 0 HapticScene.withS1).2.heap.length = 2 ∧
    (∀ (name : Name) (x y z : ℚ) (w : HapticScene),
      w.registered.any (fun e => e.1 = name) = true →
        (w.sphereCreate name x y z).1 = false ∧
        (w.sphereCreate name x y z).2.chaiChildren = w.chaiChildren ++ [w.nextShape] ∧
        (w.prismCreate name x y z).1 = false ∧
        (w.prismCreate name x y z).2.chaiChildren = w.chaiChildren ++ [w.nextShape]) := by
  refine ⟨by decide, by decide, by decide, by decide, by decide, by decide, by decide, ?_⟩
  intro name x y z w h
  obtain ⟨h1, _, h3, h4, _, h6⟩ := create_registered_name name x y z w h
  exact ⟨h1, h3, h4, h6⟩

/-! ## Theorems: composite binding -/

theorem indexOf_childName (p c : Name) (hp : '/' ∉ p) :
    (childName p c).indexOf? '/' = some p.length := by
  have hnone : List.findIdx? (fun x => x == '/') p = none := by
    rw [List.findIdx?_eq_none_iff]
    intro x hx
    simp only [beq_eq_false_iff_ne, ne_eq]
    intro hxe
    exact hp (hxe ▸ hx)
  simp [childName, List.indexOf?, hnone]

theorem take_childName (p c : Name) :
    (childName p c).take (if p.length < 255 then p.length else 255) = p.take 255 := by
  unfold childName
  split_ifs with h
  · rw [List.take_append_of_le_length (le_refl _), List.take_length,
      List.take_of_length_le (le_of_lt h)]
  · rw [List.take_append_of_le_length (not_lt.mp h)]

/-- The constructor with a null primitive, for a name `p/c` whose prefix is
not registered: the binding creates the composite and `addChild` then
dereferences the null primitive of the new object. -/
theorem construct_null_fresh (p c : Name) (w : Scene) (hp : '/' ∉ p)
    (hnone : w.findObject (p.take 255) = none) :
    Scene.construct none (childName p c) w = none := by
  have hne : w.nextObject + 1 ≠ w.nextObject := Nat.succ_ne_self _
  simp only [Scene.findObject] at hnone
  simp [Scene.construct, indexOf_childName p c hp, take_childName, Scene.findObject,
    Scene.asComposite, hnone, Scene.newComposite, Scene.addChild,
    Function.update_noteq hne.symm]

/-- The constructor with a null primitive, for a name `p/c` whose prefix is
registered to a composite: `addChild` dereferences the null primitive of the
new object. -/
theorem construct_null_existing (p c : Name) (w : Scene) (a : Nat) (o : SceneObject)
    (hp : '/' ∉ p) (hreg : w.world_objects (p.take 255) = some a)
    (hobj : w.heap a = some o) (hc : o.composite = true) (ha : a < w.nextObject) :
    Scene.construct none (childName p c) w = none := by
  have hne : a ≠ w.nextObject := Nat.ne_of_lt ha
  simp [Scene.construct, indexOf_childName p c hp, take_childName, Scene.findObject,
    Scene.asComposite, hreg, Function.update_noteq hne, hobj, hc, Scene.addChild,
    Function.update_noteq hne.symm]

/-- The constructor with a null primitive, for a name `p/c` whose prefix is
registered to an object that is not a composite: the constructor returns
before the binding, and only the new object is allocated. -/
theorem construct_null_not_composite (p c : Name) (w : Scene) (a : Nat) (o : SceneObject)
    (hp : '/' ∉ p) (hreg : w.world_objects (p.take 255) = some a)
    (hobj : w.heap a = some o) (hc : o.composite = false) (ha : a < w.nextObject) :
    Scene.construct none (childName p c) w
      = some (w.nextObject,
          { w with
            heap := Function.update w.heap w.nextObject
              (some { m_name := childName p c, composite := false, odePrimitive := none,
                      m_children := [] })
            nextObject := w.nextObject + 1 }) := by
  have hne : a ≠ w.nextObject := Nat.ne_of_lt ha
  simp [Scene.construct, indexOf_childName p c hp, take_childName, Scene.findObject,
    Scene.asComposite, hreg, Function.update_noteq hne, hobj, hc]

/-- The constructor for a name without `/`: only the new object is allocated. -/
theorem construct_plain (q : Option OdePrimitive) (name : Name) (w : Scene)
    (h : '/' ∉ name) :
    Scene.construct q name w
      = some (w.nextObject,
          { w with
            heap := Function.update w.heap w.nextObject
              (some { m_name := name, composite := false, odePrimitive := q,
                      m_children := [] })
            nextObject := w.nextObject + 1 }) := by
  have hnone : name.indexOf? '/' = none := by
    simp only [List.indexOf?]
    rw [List.findIdx?_eq_none_iff]
    intro x hx
    simp only [beq_eq_false_iff_ne, ne_eq]
    intro hxe
    exact h (hxe ▸ hx)
  simp [Scene.construct, hnone]

/-- C13, the code at the failing input. In the empty scene no object named `a`
exists, and the constructor of `a/b` as every factory calls it, with a null
primitive, has no result: after it has created the composite `a`, registered
it and appended the new object to its children, `addChild` reads
`o->odePrimitive()->m_odeBody` through the null primitive of the new object.
So the sphere and prism factories have no result for the name `a/b`, and the
same holds for every name `p/c` whose prefix is not registered.  Only with a
primitive supplied does the constructor reach the claimed state (composite
`a` registered, the new object its only child, carrying its body). -/
theorem C13_composite_binding_dereferences_null :
    Scene.empty.findObject ['a'] = none ∧
    (Scene.construct none (childName ['a'] ['b']) Scene.empty).isNone = true ∧
    (HapticsSphereFactory.create (childName ['a'] ['b']) 0 0 0 World.empty).isNone = true ∧
    (HapticsPrismFactory.create (childName ['a'] ['b']) 0 0 0 World.empty).isNone = true ∧
    (∀ (p c : Name) (w : Scene), '/' ∉ p → w.findObject (p.take 255) = none →
      Scene.construct none (childName p c) w = none) ∧
    (∀ (p c : Name) (x y z : ℚ) (w : World), '/' ∉ p →
      w.scene.findObject (p.take 255) = none →
        HapticsSphereFactory.create (childName p c) x y z w = none ∧
        HapticsPrismFactory.create (childName p c) x y z w = none) ∧
    (Scene.construct (some { m_odeBody := 7, geomBody := 7 }) (childName ['a'] ['b'])
        Scene.empty).map
      (fun r => (r.1, r.2.world_objects ['a'], r.2.childrenOf ['a'], r.2.bodyOf 1,
        r.2.bodyOf r.1))
      = some (0, some 1, [0], some 0, some 0) := by
  refine ⟨rfl, by decide, by decide, by decide, ?_, ?_, by decide⟩
  · intro p c w hp hnone
    exact construct_null_fresh p c w hp hnone
  · intro p c x y z w hp hnone
    simp [HapticsSphereFactory.create, HapticsPrismFactory.create,
      construct_null_fresh p c w.scene hp hnone]

/-- C14, the code at the failing input. With the composite `p` registered, the
sphere factory has no result for the child `p/a`: the constructor runs with a
null primitive, and `addChild`, after appending the new object to the children
of `p`, reads `o->odePrimitive()->m_odeBody` through it, so the line that
would give the child the body of the composite is never reached.  The same
holds for every child name under a registered composite and for the first
child under a prefix not yet registered, and for the prism factory.  Only when
the caller supplies primitives are `p/a` and `p/b` both children of `p`, in
creation order, with the body of the composite. -/
theorem C14_child_creation_dereferences_null :
    (World.withComposite ['p']).scene.asComposite
      ((World.withComposite ['p']).scene.findObject ['p']) = some 0 ∧
    (HapticsSphereFactory.create (childName ['p'] ['a']) 0 0 0
      (World.withComposite ['p'])).isNone = true ∧
    (HapticsPrismFactory.create (childName ['p'] ['a']) 0 0 0
      (World.withComposite ['p'])).isNone = true ∧
    (HapticsSphereFactory.create (childName ['p'] ['a']) 0 0 0 World.empty).isNone = true ∧
    (∀ (p c : Name) (x y z : ℚ) (w : World) (a : Nat) (o : SceneObject), '/' ∉ p →
      w.scene.world_objects (p.take 255) = some a → w.scene.heap a = some o →
      o.composite = true → a < w.scene.nextObject →
        HapticsSphereFactory.create (childName p c) x y z w = none ∧
        HapticsPrismFactory.create (childName p c) x y z w = none) ∧
    Scene.twoChildren.map
      (fun w => (w.world_objects ['p'], w.childrenOf ['p'], w.bodyOf 1, w.bodyOf 0,
        w.bodyOf 2))
      = some (some 1, [0, 2], some 0, some 0, some 0) := by
  refine ⟨by decide, by decide, by decide, by decide, ?_, by decide⟩
  intro p c x y z w a o hp hreg hobj hc ha
  simp [HapticsSphereFactory.create, HapticsPrismFactory.create,
    construct_null_existing p c w.scene a o hp hreg hobj hc ha]

/-- C15, the code at the failing input. The sphere `p` exists and is not a
composite.  A request to create the sphere `p/c` does not fail: the
constructor leaves the composite binding at `if (obj) return;`, but the
object is constructed all the same, its shape is added to the CHAI world, the
factory registers it and returns true.  Existing state is not left untouched:
the CHAI world and the registered names have grown.  (That `world_objects`
and the object `p` are unchanged and no composite is created does hold.)  For
every such request the factory returns what `add_object` returns, and the
CHAI world has gained the new shape whatever that is. -/
theorem C15_creation_under_non_composite_succeeds :
    (World.withSphere ['p']).scene.findObject ['p'] = some 0 ∧
    (World.withSphere ['p']).scene.asComposite (some 0) = none ∧
    World.summary [['p']] (some (true, World.withSphere ['p']))
      = some (true, [['p']], [0], 1, []) ∧
    World.summary [['p']]
        (HapticsSphereFactory.create (childName ['p'] ['c']) 1 2 3 (World.withSphere ['p']))
      = some (true, [['p'], childName ['p'] ['c']], [0, 1], 2, []) ∧
    World.summary [['p']]
        (HapticsPrismFactory.create (childName ['p'] ['c']) 1 2 3 (World.withSphere ['p']))
      = some (true, [['p'], childName ['p'] ['c']], [0, 1], 2, []) ∧
    (∀ (p c : Name) (x y z : ℚ) (w : World) (a : Nat) (o : SceneObject), '/' ∉ p →
      w.scene.world_objects (p.take 255) = some a → w.scene.heap a = some o →
      o.composite = false → a < w.scene.nextObject →
        (HapticsSphereFactory.create (childName p c) x y z w).map Prod.fst
          = some (!(w.haptic.registered.any (fun e => e.1 = childName p c))) ∧
        (HapticsSphereFactory.create (childName p c) x y z w).map
            (fun r => r.2.haptic.chaiChildren)
          = some (w.haptic.chaiChildren ++ [w.haptic.nextShape]) ∧
        (HapticsSphereFactory.create (childName p c) x y z w).map
            (fun r => r.2.scene.world_objects)
          = some w.scene.world_objects) := by
  refine ⟨by decide, by decide, by decide, by decide, by decide, ?_⟩
  intro p c x y z w a o hp hreg hobj hc ha
  rw [HapticsSphereFactory.create,
    construct_null_not_composite p c w.scene a o hp hreg hobj hc ha]
  simp only [Option.map_some', HapticScene.sphereCreate, HapticScene.newShapeObject,
    HapticScene.add_object, HapticScene.setPosition]
  refine ⟨?_, ?_, trivial⟩
  · cases hr : w.haptic.registered.any (fun e => e.1 = childName p c) <;> simp [hr]
  · cases hr : w.haptic.registered.any (fun e => e.1 = childName p c) <;> simp [hr]

/-! ## Theorems: constraint back-lists -/

theorem empty_built (P : Nat → Option Nat → Prop) : ConstraintWorld.empty.Built P := by
  refine ⟨fun c X => ?_, fun c hc => ?_⟩
  · simp [ConstraintWorld.empty]
  · simp [ConstraintWorld.empty] at hc

theorem newConstraint_built (P : Nat → Option Nat → Prop) (name : Name) (o1 : Nat)
    (o2 : Option Nat) (w : ConstraintWorld) (hw : w.Built P) (hP : P o1 o2) :
    (w.newConstraint name o1 o2).2.Built P := by
  obtain ⟨hl, hd⟩ := hw
  have hnot : ∀ Y, ¬ w.nextConstraint ∈ w.m_constraintList Y :=
    fun Y h => Nat.lt_irrefl _ ((hl _ Y).mp h).1
  refine ⟨fun c X => ?_, fun c hc => ?_⟩
  · cases o2 with
    | none =>
      simp only [ConstraintWorld.newConstraint]
      by_cases hc : c = w.nextConstraint
      · subst hc
        by_cases hX : X = o1
        · subst hX; simp
        · simp [Function.update_noteq hX, hnot, Ne.symm hX]
      · by_cases hX : X = o1
        · subst hX
          simp [Function.update_noteq hc, hc, hl c X]
          omega
        · simp [Function.update_noteq hc, Function.update_noteq hX, hl c X]
          omega
    | some b =>
      simp only [ConstraintWorld.newConstraint]
      by_cases hc : c = w.nextConstraint
      · subst hc
        by_cases hX : X = o1
        · subst hX
          by_cases hb : b = X
          · subst hb; simp
          · simp [Function.update_noteq (Ne.symm hb)]
        · by_cases hXb : X = b
          · subst hXb; simp
          · simp [Function.update_noteq hX, Function.update_noteq hXb, hnot, Ne.symm hX,
              Ne.symm hXb]
      · by_cases hX : X = o1
        · subst hX
          by_cases hb : b = X
          · subst hb
            simp [Function.update_noteq hc, hc, hl c b]
            intro _
            omega
          · simp [Function.update_noteq hc, Function.update_noteq (Ne.symm hb), hc, hl c X]
            intro _
            omega
        · by_cases hXb : X = b
          · subst hXb
            simp [Function.update_noteq hc, Function.update_noteq hX, hc, hl c X]
            intro _
            omega
          · simp [Function.update_noteq hc, Function.update_noteq hX,
              Function.update_noteq hXb, hl c X]
            intro _
            omega
  · have hcons : (w.newConstraint name o1 o2).2.constraints
        = Function.update w.constraints w.nextConstraint
            { m_object1 := o1, m_object2 := o2, m_stiffness := 0, m_damping := 0 } := by
      cases o2 <;> rfl
    have hnext : (w.newConstraint name o1 o2).2.nextConstraint = w.nextConstraint + 1 := by
      cases o2 <;> rfl
    rw [hnext] at hc
    rw [hcons]
    by_cases hce : c = w.nextConstraint
    · subst hce
      simpa using hP
    · rw [Function.update_noteq hce]
      exact hd c (by omega)

theorem build_built (P : Nat → Option Nat → Prop) (cs : List (Name × Nat × Option Nat)) :
    ∀ w : ConstraintWorld, w.Built P → (∀ e ∈ cs, P e.2.1 e.2.2) →
      (ConstraintWorld.build cs w).Built P := by
  induction cs with
  | nil => intro w hw _; exact hw
  | cons e es ih =>
    intro w hw hP
    exact ih _ (newConstraint_built P e.1 e.2.1 e.2.2 w hw (hP e (List.mem_cons_self _ _)))
      (fun x hx => hP x (List.mem_cons_of_mem _ hx))

theorem mem_removeFrom (w : ConstraintWorld) (x o X c : Nat)
    (h : c ∈ (w.removeFrom x o).m_constraintList X) : c ∈ w.m_constraintList X := by
  simp only [ConstraintWorld.removeFrom] at h
  by_cases hX : X = x
  · subst hX
    simp only [Function.update_same] at h
    exact (List.mem_filter.mp h).1
  · rwa [Function.update_noteq hX] at h

theorem not_mem_removeFrom (w : ConstraintWorld) (x o : Nat) :
    o ∉ (w.removeFrom x o).m_constraintList x := by
  simp [ConstraintWorld.removeFrom]

/-- One pass of the destructor loop: it either stops on a constraint that
joins the object to itself, or goes on with a world in which the visited
constraint is marked destroyed and has left the back-list of the other
participant. -/
theorem destroyLoop_step (me o : Nat) (rest : List Nat) (w : ConstraintWorld)
    (hself : ¬ ((w.constraints o).m_object1 = me ∧ (w.constraints o).m_object2 = some me)) :
    ∃ w1, ConstraintWorld.destroyLoop me (o :: rest) w = ConstraintWorld.destroyLoop me rest w1 ∧
      w1.constraints = w.constraints ∧ w1.destroyed = w.destroyed ++ [o] ∧
      (∀ X c, c ∈ w1.m_constraintList X → c ∈ w.m_constraintList X) ∧
      (∀ X, X ≠ me →
        ((w.constraints o).m_object1 = me ∧ (w.constraints o).m_object2 = some X) ∨
          ((w.constraints o).m_object1 = X ∧ (w.constraints o).m_object2 = some me) →
        o ∉ w1.m_constraintList X) := by
  cases h2 : (w.constraints o).m_object2 with
  | none =>
    refine ⟨w.on_destroy o, by simp [ConstraintWorld.destroyLoop, h2], rfl, rfl,
      fun X c h => h, ?_⟩
    intro X _ hcond
    rcases hcond with ⟨_, h⟩ | ⟨_, h⟩ <;> exact Option.noConfusion h
  | some o2 =>
    by_cases h1 : me = (w.constraints o).m_object1
    · have ho2 : o2 ≠ me := by
        intro h
        exact hself ⟨h1.symm, by rw [h2, h]⟩
      refine ⟨(w.removeFrom o2 o).on_destroy o,
        by simp only [ConstraintWorld.destroyLoop, h2]; rw [if_pos h1, if_neg ho2], rfl, rfl,
        fun X c h => mem_removeFrom w o2 o X c h, ?_⟩
      intro X hX hcond
      rcases hcond with ⟨_, h⟩ | ⟨h, _⟩
      · have : o2 = X := Option.some.inj h
        subst this
        exact not_mem_removeFrom w o2 o
      · exact absurd (h1.trans h).symm hX
    · by_cases h3 : me = o2
      · refine ⟨(w.removeFrom (w.constraints o).m_object1 o).on_destroy o,
          by simp only [ConstraintWorld.destroyLoop, h2]; rw [if_neg h1, if_pos h3], rfl, rfl,
          fun X c h => mem_removeFrom w _ o X c h, ?_⟩
        intro X _ hcond
        rcases hcond with ⟨h, _⟩ | ⟨h, _⟩
        · exact absurd h.symm h1
        · rw [← h]
          exact not_mem_removeFrom w _ o
      · refine ⟨w.on_destroy o,
          by simp only [ConstraintWorld.destroyLoop, h2]; rw [if_neg h1, if_neg h3], rfl, rfl,
          fun X c h => h, ?_⟩
        intro X _ hcond
        rcases hcond with ⟨h, _⟩ | ⟨_, h⟩
        · exact absurd h.symm h1
        · exact absurd (Option.some.inj h).symm h3

/-- The destructor loop over a list of constraints none of which joins the
object to itself: it runs to the end, calls `on_destroy` on every constraint
of the list in order, only shortens back-lists, and removes every visited
constraint from the back-list of its other participant. -/
theorem destroyLoop_spec (me : Nat) (L : List Nat) :
    ∀ w : ConstraintWorld,
      (∀ o ∈ L, ¬ ((w.constraints o).m_object1 = me ∧
        (w.constraints o).m_object2 = some me)) →
      ∃ w2, ConstraintWorld.destroyLoop me L w = some w2 ∧
        w2.constraints = w.constraints ∧ w2.destroyed = w.destroyed ++ L ∧
        (∀ X c, c ∈ w2.m_constraintList X → c ∈ w.m_constraintList X) ∧
        (∀ X o, X ≠ me → o ∈ L →
          ((w.constraints o).m_object1 = me ∧ (w.constraints o).m_object2 = some X) ∨
            ((w.constraints o).m_object1 = X ∧ (w.constraints o).m_object2 = some me) →
          o ∉ w2.m_constraintList X) := by
  induction L with
  | nil =>
    intro w _
    exact ⟨w, rfl, rfl, by simp, fun X c h => h, fun X o _ ho => absurd ho (List.not_mem_nil o)⟩
  | cons o rest ih =>
    intro w hself
    obtain ⟨w1, e1, c1, d1, s1, r1⟩ :=
      destroyLoop_step me o rest w (hself o (List.mem_cons_self _ _))
    obtain ⟨w2, e2, c2, d2, s2, r2⟩ := ih w1 (by
      intro x hx
      rw [c1]
      exact hself x (List.mem_cons_of_mem _ hx))
    refine ⟨w2, by rw [e1, e2], by rw [c2, c1], by rw [d2, d1]; simp, ?_, ?_⟩
    · intro X c h
      exact s1 X c (s2 X c h)
    · intro X x hX hx hcond
      rcases List.mem_cons.mp hx with rfl | hx
      · exact fun h => r1 X hX hcond (s2 X x h)
      · rw [← c1] at hcond
        exact r2 X x hX hx hcond

/-- With back-lists built by the `OscConstraint` constructor, the destructor
`OscObject::~OscObject` of an object that no constraint joins to itself runs
to the end; it calls `on_destroy` on exactly the constraints of the object's
back-list, which are all the constraints naming the object, and afterwards no
other object's back-list contains a constraint whose `object1` or `object2` is
the destroyed object. -/
theorem destroyObject_clears_back_lists (cs : List (Name × Nat × Option Nat)) (me : Nat)
    (hself : ∀ e ∈ cs, ¬ (e.2.1 = me ∧ e.2.2 = some me)) :
    ∃ w2, (ConstraintWorld.build cs ConstraintWorld.empty).destroyObject me = some w2 ∧
      w2.destroyed = (ConstraintWorld.build cs ConstraintWorld.empty).m_constraintList me ∧
      (∀ c, c < (ConstraintWorld.build cs ConstraintWorld.empty).nextConstraint →
        ((ConstraintWorld.build cs ConstraintWorld.empty).constraints c).m_object1 = me ∨
          ((ConstraintWorld.build cs ConstraintWorld.empty).constraints c).m_object2 = some me →
        c ∈ w2.destroyed) ∧
      (∀ X c, X ≠ me → c ∈ w2.m_constraintList X →
        (w2.constraints c).m_object1 ≠ me ∧ (w2.constraints c).m_object2 ≠ some me) := by
  obtain ⟨hl, hd⟩ := build_built (fun a b => ¬ (a = me ∧ b = some me)) cs
    ConstraintWorld.empty (empty_built _) hself
  have hlog : (ConstraintWorld.build cs ConstraintWorld.empty).destroyed = [] := by
    have : ∀ (l : List (Name × Nat × Option Nat)) (w : ConstraintWorld),
        (ConstraintWorld.build l w).destroyed = w.destroyed := by
      intro l
      induction l with
      | nil => intro w; rfl
      | cons e es ih =>
        intro w
        rw [ConstraintWorld.build, ih]
        cases h : e.2.2 <;> simp [ConstraintWorld.newConstraint, h]
    exact this cs ConstraintWorld.empty
  obtain ⟨w2, e2, c2, d2, s2, r2⟩ := destroyLoop_spec me
    ((ConstraintWorld.build cs ConstraintWorld.empty).m_constraintList me)
    (ConstraintWorld.build cs ConstraintWorld.empty) (by
      intro o ho
      exact hd o ((hl o me).mp ho).1)
  refine ⟨w2, e2, by rw [d2, hlog]; simp, ?_, ?_⟩
  · intro c hc hnames
    rw [d2, hlog, List.nil_append]
    exact (hl c me).mpr ⟨hc, hnames⟩
  · intro X c hX hmem
    have hold := (hl c X).mp (s2 X c hmem)
    rw [c2]
    constructor
    · intro h1
      have hX2 : ((ConstraintWorld.build cs ConstraintWorld.empty).constraints c).m_object2
          = some X := by
        rcases hold.2 with h | h
        · exact absurd (h.symm.trans h1) hX
        · exact h
      exact r2 X c hX ((hl c me).mpr ⟨hold.1, Or.inl h1⟩) (Or.inl ⟨h1, hX2⟩) hmem
    · intro h2
      have hX1 : ((ConstraintWorld.build cs ConstraintWorld.empty).constraints c).m_object1
          = X := by
        rcases hold.2 with h | h
        · exact h
        · rw [h2] at h
          exact absurd (Option.some.inj h).symm hX
      exact r2 X c hX ((hl c me).mpr ⟨hold.1, Or.inr h2⟩) (Or.inr ⟨hX1, h2⟩) hmem

/-- C17, the code at the failing input. The constructor accepts a constraint
whose two participants are the same object and enters it twice in the
back-list of that object.  The destructor of the object then calls
`m_constraintList.remove(o)` on the very list its loop iterates over: the
element under the iterator is erased, and the following `(**it).on_destroy()`
and `it++` have no defined behaviour, so `on_destroy` is not known to reach any
constraint.  It is so also when other constraints name the object.  When no
constraint joins the destroyed object to itself the destructor does what is
claimed: it calls `on_destroy` on all constraints naming the object, and no
other back-list keeps one of them. -/
theorem C17_self_joined_constraint_breaks_destructor :
    (ConstraintWorld.build [(['s'], 1, some 1)] ConstraintWorld.empty).m_constraintList 1
      = [0, 0] ∧
    ((ConstraintWorld.build [(['s'], 1, some 1)] ConstraintWorld.empty).destroyObject
      1).isNone = true ∧
    ((ConstraintWorld.build (sampleConstraints ++ [(['s'], 1, some 1)])
      ConstraintWorld.empty).destroyObject 1).isNone = true ∧
    ((ConstraintWorld.build sampleConstraints ConstraintWorld.empty).destroyObject 1).map
        (fun w => (w.m_constraintList 2, w.m_constraintList 3, w.destroyed))
      = some ([2], [], [0, 1]) ∧
    (∀ (cs : List (Name × Nat × Option Nat)) (me : Nat),
      (∀ e ∈ cs, ¬ (e.2.1 = me ∧ e.2.2 = some me)) →
        ∃ w2, (ConstraintWorld.build cs ConstraintWorld.empty).destroyObject me = some w2 ∧
          w2.destroyed = (ConstraintWorld.build cs ConstraintWorld.empty).m_constraintList me ∧
          (∀ X c, X ≠ me → c ∈ w2.m_constraintList X →
            (w2.constraints c).m_object1 ≠ me ∧ (w2.constraints c).m_object2 ≠ some me)) := by
  refine ⟨by decide, by decide, by decide, by decide, ?_⟩
  intro cs me hself
  obtain ⟨w2, h1, h2, _, h4⟩ := destroyObject_clears_back_lists cs me hself
  exact ⟨w2, h1, h2, h4⟩

/-! ## Theorems: constraint responses and joint motors -/

/-- C21. For every `k`, `OscConstraint::responseLinear_handler` called with the
one argument `k` sets the stiffness of the constraint to `k` and its damping
to 0, whatever they were before and on whichever thread, and leaves the
participants alone; called with any other number of arguments it changes
nothing. -/
theorem C21_responseLinear_sets_stiffness (k : ℚ) (thread : DimpleThread)
    (me : OscConstraint) :
    (OscConstraint.responseLinear_handler [k] thread me).m_stiffness = k ∧
    (OscConstraint.responseLinear_handler [k] thread me).m_damping = 0 ∧
    (OscConstraint.responseLinear_handler [k] thread me).m_object1 = me.m_object1 ∧
    (OscConstraint.responseLinear_handler [k] thread me).m_object2 = me.m_object2 ∧
    (∀ args : List ℚ, args.length ≠ 1 →
      OscConstraint.responseLinear_handler args thread me = me) := by
  refine ⟨rfl, rfl, rfl, rfl, fun args h => ?_⟩
  match args, h with
  | [], _ => rfl
  | [_], h => exact absurd rfl h
  | _ :: _ :: _, _ => rfl

/-- C22. For every stiffness `k`, damping `b`, hinge angle `theta` and angle
rate `omega`, `OscHinge::simulationCallback` sets the torque property to
`-k*theta - b*omega` and hands exactly that torque to the joint, leaving
stiffness and damping alone; when the joint is not found on `object1` it
applies nothing and leaves the hinge, its torque property included,
unchanged. -/
theorem C22_hinge_torque (me : OscHinge) (theta omega : ℚ) :
    (OscHinge.simulationCallback (some ⟨theta, omega⟩) me).1.m_torque
      = -me.m_stiffness * theta - me.m_damping * omega ∧
    (OscHinge.simulationCallback (some ⟨theta, omega⟩) me).2
      = some (-me.m_stiffness * theta - me.m_damping * omega) ∧
    (OscHinge.simulationCallback (some ⟨theta, omega⟩) me).1.toOscConstraint
      = me.toOscConstraint ∧
    OscHinge.simulationCallback none me = (me, none) :=
  ⟨rfl, rfl, rfl, rfl⟩

/-- C30. For every stiffness `k`, damping `b`, axis-1 angle `theta1` and rate
`omega1`, `OscHinge2::simulationCallback` applies the torque
`+k*theta1 - b*omega1` on axis 1, whose stiffness term has the opposite sign
to the `-k*theta` of `OscHinge::simulationCallback`, and the torque 0 on axis
2; `OscUniversal::simulationCallback` applies `-k*theta_i - b*omega_i` on each
of its two axes.  Neither applies anything when the joint is not found. -/
theorem C30_hinge2_and_universal_torques (me : OscConstraint) (hinge : OscHinge)
    (theta1 omega1 theta2 omega2 : ℚ) :
    OscHinge2.simulationCallback (some ⟨theta1, omega1⟩) me
      = some (me.m_stiffness * theta1 - me.m_damping * omega1, 0) ∧
    (OscHinge.simulationCallback (some ⟨theta1, omega1⟩) hinge).2
      = some (-(hinge.m_stiffness * theta1) - hinge.m_damping * omega1) ∧
    OscUniversal.simulationCallback (some (⟨theta1, omega1⟩, ⟨theta2, omega2⟩)) me
      = some (-me.m_stiffness * theta1 - me.m_damping * omega1,
              -me.m_stiffness * theta2 - me.m_damping * omega2) ∧
    OscHinge2.simulationCallback none me = none ∧
    OscUniversal.simulationCallback none me = none := by
  refine ⟨rfl, ?_, rfl, rfl, rfl⟩
  simp [OscHinge.simulationCallback]

/-- C29, counterexample. On the machine (IEEE double precision), after the
samples 0.03 and 0.058 on the first axis the bounds differ and the second
sample equals the upper bound, yet it is mapped to `1 + 2^-52`, not to 1.
And with arithmetic taken as exact, after the samples 0 and `2^-160` the
bounds differ and the second sample equals the upper bound, yet it is mapped to
`2^-161`: the difference of the bounds, narrowed to `float`, is zero and the
scale is 1. -/
theorem C29_counterexample_rounding :
    (feedWorkspaceRnd toDouble resetWorkspace
        [⟨sampleLo, 0, 0⟩, ⟨sampleHi, 0, 0⟩]).1.m_workspace0.get 0 = sampleLo ∧
    (feedWorkspaceRnd toDouble resetWorkspace
        [⟨sampleLo, 0, 0⟩, ⟨sampleHi, 0, 0⟩]).1.m_workspace1.get 0 = sampleHi ∧
    sampleHi ≠ sampleLo ∧
    (feedWorkspaceRnd toDouble resetWorkspace [⟨sampleLo, 0, 0⟩, ⟨sampleHi, 0, 0⟩]).2
      = [⟨0, 0, 0⟩, ⟨1 + pow2 (-52), 0, 0⟩] ∧
    (1 + pow2 (-52) : ℚ) ≠ 1 ∧
    (feedWorkspace resetWorkspace
        [⟨0, 0, 0⟩, ⟨pow2 (-160), 0, 0⟩]).1.m_workspace0.get 0 = 0 ∧
    (feedWorkspace resetWorkspace
        [⟨0, 0, 0⟩, ⟨pow2 (-160), 0, 0⟩]).1.m_workspace1.get 0 = pow2 (-160) ∧
    pow2 (-160) ≠ 0 ∧
    (feedWorkspace resetWorkspace [⟨0, 0, 0⟩, ⟨pow2 (-160), 0, 0⟩]).2
      = [⟨0, 0, 0⟩, ⟨pow2 (-161), 0, 0⟩] ∧
    pow2 (-161) ≠ 1 := by
  refine ⟨by decide!, by decide!, by decide!, by decide!, by decide!, by decide!,
    by decide!, by decide!, by decide!, by decide!⟩

/-- C29, amended. In `HapticsSim::updateWorkspace`, on every axis, with
arithmetic in double precision taken as exact: when the difference of the
bounds after expansion, narrowed to `float`, is not zero, which is when the
bounds differ by more than `2^-150`, a sample equal to the upper bound is
mapped to exactly 1 and a sample equal to the lower bound to exactly -1;
otherwise the scale is 1 and the sample is mapped to its distance from the
midpoint of the bounds, which is exactly 0 when the bounds coincide; and on
the first sample after a reset the bounds do coincide. -/
theorem C29_workspace_bounds_map_to_unit (w : Workspace) (pos : Vec3) (i : Fin 3) :
    (toFloat ((updateWorkspace w pos).1.m_workspace1.get i
        - (updateWorkspace w pos).1.m_workspace0.get i) ≠ 0 →
      pos.get i = (updateWorkspace w pos).1.m_workspace1.get i →
        (updateWorkspace w pos).2.get i = 1) ∧
    (toFloat ((updateWorkspace w pos).1.m_workspace1.get i
        - (updateWorkspace w pos).1.m_workspace0.get i) ≠ 0 →
      pos.get i = (updateWorkspace w pos).1.m_workspace0.get i →
        (updateWorkspace w pos).2.get i = -1) ∧
    (toFloat ((updateWorkspace w pos).1.m_workspace1.get i
        - (updateWorkspace w pos).1.m_workspace0.get i) ≠ 0
      ↔ pow2 (-150) < (updateWorkspace w pos).1.m_workspace1.get i
          - (updateWorkspace w pos).1.m_workspace0.get i) ∧
    (toFloat ((updateWorkspace w pos).1.m_workspace1.get i
        - (updateWorkspace w pos).1.m_workspace0.get i) = 0 →
      (updateWorkspace w pos).1.m_workspaceScale.get i = 1 ∧
      (updateWorkspace w pos).2.get i
        = pos.get i - ((updateWorkspace w pos).1.m_workspace1.get i
            + (updateWorkspace w pos).1.m_workspace0.get i) / 2) ∧
    ((updateWorkspace w pos).1.m_workspace1.get i = (updateWorkspace w pos).1.m_workspace0.get i →
      (updateWorkspace w pos).2.get i = 0 ∧
        (updateWorkspace w pos).1.m_workspaceScale.get i = 1) ∧
    (w.m_resetWorkspace = true →
      (updateWorkspace w pos).1.m_workspace1.get i
        = (updateWorkspace w pos).1.m_workspace0.get i) := by
  obtain ⟨h0, h1, hs, _, hp⟩ := updateWorkspace_axis w pos i
  rw [hp, hs, h0, h1]
  generalize hlo : axisLo ((seedBound w w.m_workspace0 pos).get i) (pos.get i) = lo
  generalize hhi : axisHi ((seedBound w w.m_workspace1 pos).get i) (pos.get i) = hi
  have hle : lo ≤ pos.get i := hlo ▸ axisLo_le _ _
  have hge : pos.get i ≤ hi := hhi ▸ le_axisHi _ _
  have hz : toFloat 0 = 0 := rfl
  have hne_of : toFloat (hi - lo) ≠ 0 → hi - lo ≠ 0 := by
    intro hd h0
    rw [h0] at hd
    exact hd hz
  refine ⟨?_, ?_, ?_, ?_, ?_, ?_⟩
  · intro hd hp
    have hd2 := hne_of hd
    rw [hp]
    unfold axisOffset axisScale
    rw [if_pos hd]
    field_simp
    ring
  · intro hd hp
    have hd2 := hne_of hd
    rw [hp]
    unfold axisOffset axisScale
    rw [if_pos hd]
    field_simp
    ring
  · rw [toFloat_ne_zero_iff, abs_of_nonneg (by linarith)]
  · intro hd
    have hd2 : ¬ toFloat (hi - lo) ≠ 0 := not_not.mpr hd
    unfold axisOffset axisScale
    rw [if_neg hd2]
    constructor
    · trivial
    · ring
  · intro heq
    have hd : ¬ (toFloat (hi - lo) ≠ 0) := by
      rw [heq, sub_self]
      exact not_not.mpr hz
    have hp : pos.get i = lo := le_antisymm (heq ▸ hge) hle
    unfold axisOffset axisScale
    rw [if_neg hd, hp, heq]
    constructor
    · ring
    · trivial
  · intro hr
    rw [← hlo, ← hhi]
    simp [seedBound, hr, axisLo, axisHi]

/-- Witness for C29: with the bounds -1 and 1 stored, the sample 1 on the upper
bound is mapped to 1 and the sample -1 on the lower bound to -1. -/
theorem C29_workspace_bounds_map_to_unit_witness :
    toFloat ((updateWorkspace grabbedSim.workspace ⟨1, -1, 0⟩).1.m_workspace1.get 0
        - (updateWorkspace grabbedSim.workspace ⟨1, -1, 0⟩).1.m_workspace0.get 0) ≠ 0 ∧
    (updateWorkspace grabbedSim.workspace ⟨1, -1, 0⟩).1.m_workspace1.get 0 = 1 ∧
    (updateWorkspace grabbedSim.workspace ⟨1, -1, 0⟩).1.m_workspace0.get 1 = -1 ∧
    (updateWorkspace grabbedSim.workspace ⟨1, -1, 0⟩).2.get 0 = 1 ∧
    (updateWorkspace grabbedSim.workspace ⟨1, -1, 0⟩).2.get 1 = -1 :=
  ⟨by decide!, by decide!, by decide!,
    (C29_workspace_bounds_map_to_unit grabbedSim.workspace ⟨1, -1, 0⟩ 0).1
      (by decide!) (by decide!),
    (C29_workspace_bounds_map_to_unit grabbedSim.workspace ⟨1, -1, 0⟩ 1).2.1
      (by decide!) (by decide!)⟩

/-! ## Theorems: meshes -/

/-- C23, the code at the failing input. For the name `a/m` and a file that
cannot be loaded, `HapticsMeshFactory::create` does not return false: the
base-class constructor runs before the body of the `OscMeshCHAI` constructor
tries to load the file, finds the `/`, creates and registers the composite `a`
and calls `addChild`, which dereferences the null primitive of the new
object.  The same holds for every name `p/c` whose prefix is not registered or
names a composite.  For a name without `/` the factory does return false, and
the haptic scene and `world_objects` are as before. -/
theorem C23_mesh_create_with_composite_name :
    (HapticsMeshFactory.create (childName ['a'] ['m']) ['f'] none 0 0 0 World.empty).isNone
      = true ∧
    (HapticsMeshFactory.create (childName ['p'] ['m']) ['f'] none 0 0 0
      (World.withComposite ['p'])).isNone = true ∧
    World.summary [['m']] (HapticsMeshFactory.create ['m'] ['f'] none 0 0 0 World.empty)
      = some (false, [], [], 1, []) ∧
    (∀ (p c filename : Name) (x y z : ℚ) (w : World), '/' ∉ p →
      w.scene.findObject (p.take 255) = none →
        HapticsMeshFactory.create (childName p c) filename none x y z w = none) ∧
    (∀ (name filename : Name) (x y z : ℚ) (w : World), '/' ∉ name →
      (HapticsMeshFactory.create name filename none x y z w).map
          (fun r => (r.1, r.2.haptic)) = some (false, w.haptic) ∧
      (HapticsMeshFactory.create name filename none x y z w).map
          (fun r => r.2.scene.world_objects) = some w.scene.world_objects) := by
  refine ⟨by decide, by decide, by decide, ?_, ?_⟩
  · intro p c filename x y z w hp hnone
    simp [HapticsMeshFactory.create, OscMeshCHAI.constructor,
      construct_null_fresh p c w.scene hp hnone]
  · intro name filename x y z w h
    rw [HapticsMeshFactory.create, OscMeshCHAI.constructor,
      construct_plain none name w.scene h]
    exact ⟨rfl, rfl⟩

/-- C26, the code at the failing input. For a mesh whose boundary box runs from
(0, 0, 0) to (1, 1, 1), the translation the constructor applies under the
comment "center the mesh" is (1/2, 1/2, 1/2) and puts the centre of the box at
(1, 1, 1), not at the origin.  For every boundary box the centre ends up at
`vmax - vmin`, while the translation `-(vmin + vmax)/2` would put it at the
origin. -/
theorem C26_translation_does_not_centre :
    OscMeshCHAI.centring ⟨0, 0, 0⟩ ⟨1, 1, 1⟩ = ⟨1 / 2, 1 / 2, 1 / 2⟩ ∧
    ((ChaiMesh.loaded ⟨0, 0, 0⟩ ⟨1, 1, 1⟩).translate
      (OscMeshCHAI.centring ⟨0, 0, 0⟩ ⟨1, 1, 1⟩)).centre = ⟨1, 1, 1⟩ ∧
    ((ChaiMesh.loaded ⟨0, 0, 0⟩ ⟨1, 1, 1⟩).translate
      (OscMeshCHAI.centring ⟨0, 0, 0⟩ ⟨1, 1, 1⟩)).centre ≠ Vec3.zero ∧
    (∀ vmin vmax : Vec3,
      ((ChaiMesh.loaded vmin vmax).translate (OscMeshCHAI.centring vmin vmax)).centre
        = vmax.sub vmin) ∧
    (∀ vmin vmax : Vec3,
      ((ChaiMesh.loaded vmin vmax).translate ((vmin.add vmax).div 2).neg).centre
        = Vec3.zero) := by
  refine ⟨by decide!, by decide!, by decide!, ?_, ?_⟩
  · intro vmin vmax
    simp only [ChaiMesh.centre, ChaiMesh.translate, ChaiMesh.loaded, OscMeshCHAI.centring,
      Vec3.add, Vec3.sub, Vec3.mul, Vec3.div, Vec3.zero, Vec3.mk.injEq]
    refine ⟨?_, ?_, ?_⟩ <;> ring
  · intro vmin vmax
    simp only [ChaiMesh.centre, ChaiMesh.translate, ChaiMesh.loaded,
      Vec3.add, Vec3.neg, Vec3.div, Vec3.zero, Vec3.mk.injEq]
    refine ⟨?_, ?_, ?_⟩ <;> ring

/-- C27, the code at the failing input. For a mesh file whose boundary box has
the extents (1, 2, 2), with diagonal 3, the constructor sets `m_size` to
(1/30, 1/30, 1/30) and `on_size` scales by (1/30, 1/60, 1/60): the factors
along y and z differ from the factor along x, and the extents (1, 2, 2) become
(1/30, 1/30, 1/30), a cube.  For every mesh the three factors are the one
value of `m_size` divided by three different extents. -/
theorem C27_sizing_changes_proportions :
    (OscMeshCHAI.construct ['m'] ['f'] (some boxFile) HapticScene.empty).1.m_size
      = ⟨1 / 30, 1 / 30, 1 / 30⟩ ∧
    OscMeshCHAI.on_size_factors (OscMeshCHAI.initialSize boxFile.diagonal)
        ((ChaiMesh.loaded boxFile.vmin boxFile.vmax).translate
          (OscMeshCHAI.centring boxFile.vmin boxFile.vmax))
      = ⟨1 / 30, 1 / 60, 1 / 60⟩ ∧
    (ChaiMesh.loaded boxFile.vmin boxFile.vmax).extent = ⟨1, 2, 2⟩ ∧
    (OscMeshCHAI.construct ['m'] ['f'] (some boxFile) HapticScene.empty).1.m_pMesh.map
        (fun m => m.2.extent)
      = some ⟨1 / 30, 1 / 30, 1 / 30⟩ ∧
    (∀ (size : ℚ) (mesh : ChaiMesh),
      OscMeshCHAI.on_size_factors (OscMeshCHAI.initialSize size) mesh
        = ⟨(1 / 10) / size / mesh.extent.x, (1 / 10) / size / mesh.extent.y,
           (1 / 10) / size / mesh.extent.z⟩) := by
  refine ⟨by decide!, by decide!, by decide!, by decide!, fun size mesh => rfl⟩

/-! ## Theorems: unlinking a constraint -/

/-- With one pass allowed for every entry that is still ahead of the iterator,
the loop of `unlinkConstraint` comes to its end. -/
theorem unlinkLoop_total (name : Name) (fuel : Nat) :
    ∀ (it : Nat) (links : List Name), links.length ≤ it + fuel →
      (OscObject.unlinkLoop name fuel it links).isSome = true := by
  induction fuel with
  | zero =>
    intro it links h
    have : ¬ it < links.length := by omega
    simp [OscObject.unlinkLoop, this]
  | succ fuel ih =>
    intro it links h
    unfold OscObject.unlinkLoop
    split_ifs with hlt heq
    · refine ih (it + 1) _ ?_
      rw [List.length_eraseIdx, if_pos hlt]
      omega
    · exact ih (it + 1) links (by omega)
    · rfl

/-- C25, the code at the failing input. On the list `[a, a]`,
`OscObject::unlinkConstraint(a)` erases the first entry and then steps over the
second, which has moved into its place: the list `[a]` remains and still
contains the name.  Of a longer run of equal neighbours every second entry
survives, while occurrences that are not neighbours are all removed.  The loop
always comes to its end. -/
theorem C25_unlink_skips_neighbour :
    OscObject.unlinkConstraint [['a'], ['a']] ['a'] = some [['a']] ∧
    OscObject.unlinkConstraint (OscObject.linkConstraint (OscObject.linkConstraint [] ['a'])
      ['a']) ['a'] = some [['a']] ∧
    OscObject.unlinkConstraint [['a'], ['a'], ['b'], ['a'], ['a'], ['a']] ['a']
      = some [['a'], ['b'], ['a']] ∧
    OscObject.unlinkConstraint [['a'], ['b'], ['a']] ['a'] = some [['b']] ∧
    (∀ (links : List Name) (name : Name),
      (OscObject.unlinkConstraint links name).isSome = true) := by
  refine ⟨by decide, by decide, by decide, by decide, fun links name => ?_⟩
  exact unlinkLoop_total name links.length 0 links (by omega)

/-! ## Theorems: the two freshness results of a tick -/

/-- The contact block sends `/world/collide` exactly when one of the two
results of `contactFreshness` is true and collision reporting is enabled. -/
theorem stepContact_collide_iff (s : HapticsSim) (co : Ref)
    (h : s.m_pContactObject = some co) :
    (HapticsSim.stepContact s).2.countP isWorldCollide
      = if ((contactFreshness s co).1 || (contactFreshness s co).2) && s.m_collide
        then 1 else 0 := by
  have hcount : ∀ (t : HapticsSim) (a b : Ref) (n : Int),
      (t.collidedWith a b n).2.2.countP isWorldCollide = 0 := by
    intro t a b n
    simp only [HapticsSim.collidedWith, OscObject.collidedWith]
    split_ifs <;> simp [isWorldCollide]
  have hkeep : ∀ (t : HapticsSim) (a b : Ref) (n : Int),
      (t.collidedWith a b n).2.1.m_collide = t.m_collide ∧
      (t.collidedWith a b n).2.1.m_counter = t.m_counter := by
    intro t a b n
    cases a <;> exact ⟨rfl, rfl⟩
  simp only [HapticsSim.stepContact, h, contactFreshness, List.countP_append, hcount,
    (hkeep _ _ _ _).1, (hkeep _ _ _ _).2]
  split_ifs <;> simp_all [isWorldCollide]

/-- The records are symmetric: what a world object has recorded for the cursor
is what the cursor has recorded for that object. -/
theorem freshness_equal_of_symmetric (s : HapticsSim) (id : Nat)
    (hsym : (s.objects id).m_collisions Ref.cursor = s.m_cursor.m_collisions (Ref.object id)) :
    (contactFreshness s (Ref.object id)).1 = (contactFreshness s (Ref.object id)).2 := by
  simp only [contactFreshness, HapticsSim.collidedWith, HapticsSim.getObj, HapticsSim.setObj,
    OscObject.collidedWith, CollisionMap.index, hsym]
  cases s.m_cursor.m_collisions (Ref.object id) <;> simp <;> split_ifs <;> rfl

/-- A tick keeps the records symmetric. -/
theorem contactTick_symmetric (s : HapticsSim) (co : Option Nat)
    (hsym : ∀ id, (s.objects id).m_collisions Ref.cursor
      = s.m_cursor.m_collisions (Ref.object id)) :
    ∀ id, ((contactTick (co.map Ref.object) s).1.objects id).m_collisions Ref.cursor
      = (contactTick (co.map Ref.object) s).1.m_cursor.m_collisions (Ref.object id) := by
  intro id
  cases co with
  | none => exact hsym id
  | some c =>
    simp only [contactTick, Option.map_some', HapticsSim.stepContact, HapticsSim.collidedWith,
      HapticsSim.getObj, HapticsSim.setObj, OscObject.collidedWith, CollisionMap.index,
      CollisionMap.assign]
    by_cases hid : id = c
    · subst hid
      simp
    · have hne : Ref.object id ≠ Ref.object c := fun h => hid (Ref.object.inj h)
      cases h1 : (s.objects c).m_collisions Ref.cursor <;>
        cases h2 : s.m_cursor.m_collisions (Ref.object c) <;>
        simp [Function.update_noteq hid, Function.update_noteq hne, hsym id]

theorem freshnessRun_equal (cos : List (Option Nat)) :
    ∀ s : HapticsSim,
      (∀ id, (s.objects id).m_collisions Ref.cursor
        = s.m_cursor.m_collisions (Ref.object id)) →
      ∀ r ∈ freshnessRun s cos, ∀ p : Bool × Bool, r = some p → p.1 = p.2 := by
  induction cos with
  | nil => intro s _ r hr; simp [freshnessRun] at hr
  | cons co rest ih =>
    intro s hsym r hr p hp
    simp only [freshnessRun, List.mem_cons] at hr
    rcases hr with rfl | hr
    · cases co with
      | none => simp at hp
      | some c =>
        simp only [Option.map_some', Option.some.injEq] at hp
        subst hp
        exact freshness_equal_of_symmetric _ c (hsym c)
    · exact ih _ (contactTick_symmetric s co hsym) r hr p hp

/-- C28. In every run of ticks from `initialize`, in a simulation whose world
objects hold no record for the newly created cursor and where only the
contact block of `step` calls `collidedWith`, the two freshness results
computed on a tick are equal: `co1`, the result of the contact object against
the cursor, equals `co2`, the result of the cursor against the contact
object. -/
theorem C28_freshness_results_equal (s : HapticsSim) (cos : List (Option Nat))
    (hnew : ∀ id, (s.objects id).m_collisions Ref.cursor = none) :
    ∀ r ∈ freshnessRun (HapticsSim.initSim s) cos, ∀ p : Bool × Bool,
      r = some p → p.1 = p.2 :=
  freshnessRun_equal cos (HapticsSim.initSim s) (fun id => by
    simp [HapticsSim.initSim, HapticsSim.newCursor, HapticsSim.newObject,
      CollisionMap.empty, hnew id])

/-- Witness for C28: six ticks after `initialize` with contacts with the
objects 1 and 2 and one tick without contact. -/
theorem C28_freshness_results_equal_witness :
    (∀ id, (baseSim.objects id).m_collisions Ref.cursor = none) ∧
    freshnessRun (HapticsSim.initSim baseSim) [some 1, some 1, none, some 1, some 2, some 1]
      = [some (false, false), some (false, false), none, some (true, true),
         some (true, true), some (true, true)] ∧
    ∀ r ∈ freshnessRun (HapticsSim.initSim baseSim)
        [some 1, some 1, none, some 1, some 2, some 1],
      ∀ p : Bool × Bool, r = some p → p.1 = p.2 :=
  ⟨fun _ => rfl, by decide,
    C28_freshness_results_equal baseSim [some 1, some 1, none, some 1, some 2, some 1]
      (fun _ => rfl)⟩

end Dimple
